import Mathlib

/-!
Verification of the afm-ai-backend fact pipeline and alignment verifier.

This file gives a shallow embedding, in Lean 4, of the parts of the
repository that the checked claims are about:

* `app/services/validation/verifier.py` — fact provenance checking and
  token / sentence alignment verification;
* `app/services/facts/fact_tokenizer.py` together with
  `app/utils/sentence_splitter.py` — the sentence splitter and the fact
  tokenization pipeline;
* `app/services/facts/fact_graph.py` — merging of role-grouped facts;
* `app/services/rag_router.py` — role routing for the qualifier;
* `app/services/facts/fact_filter.py` — procedural-noise filtering.

Modelling conventions:

* Python `str` values are Lean `String`s; all text manipulation is done on
  the underlying `List Char` so that every definition evaluates inside the
  kernel.  Python `str.lower()` is modelled for the Latin and Cyrillic
  alphabets (the only alphabets the keyword tables use).
* Python floats are modelled in fixed point, as integer thousandths
  (`ℤ`, so `0.45` becomes `450`).  Every float literal in the embedded code
  is an exact multiple of `0.001` and every operation the code performs on
  them (sums, `* 0.8`, `* 10`, `min` with `1.0`, `round(_, 3)`) keeps the
  value on that grid, so the fixed-point embedding is exact; on the grid,
  `round(_, 3)` is the identity.  A confidence of `1.0` is `1000`.
* Python dict / dataclass values become Lean structures; a value that the
  code may leave absent (`None`) becomes an `Option`.
* Python `set` values are modelled as first-occurrence deduplicated lists;
  whenever the code puts a set into an output it first sorts it, so no
  claim depends on an iteration order, except for the merged source list in
  `FactGraph._merge_role_facts`, whose order CPython leaves unspecified;
  there we fix first-occurrence order.
* Code that can raise returns `Except PyErr`.
* In-place mutation of a fact (`f.role = …`, `existing.tokens.append …`) is
  modelled by functional update: the stage returns the updated fact and the
  claims about "no mutation" are read as "every output fact is an
  unchanged input fact".
* `uuid.uuid4()` and `datetime.utcnow()` produce fresh identifiers no claim
  depends on; fact ids made by the tokenizer are modelled by `""` and the
  `created_at` timestamp is omitted from the model.
-/

/- ===================================================================
   Section 1: string utilities (Python str semantics on Char lists)
   =================================================================== -/

/-- Lowercase for the alphabets used by the code: ASCII `A`-`Z`,
Cyrillic `А`-`Я` (U+0410–U+042F, lowercased by +0x20) and `Ё` (U+0401 →
U+0451).  All other characters are fixed, matching Python `str.lower` on
the inputs the keyword tables can meet. -/
def cyrLowerChar (c : Char) : Char :=
  if 65 ≤ c.toNat ∧ c.toNat ≤ 90 then Char.ofNat (c.toNat + 32)
  else if 1040 ≤ c.toNat ∧ c.toNat ≤ 1071 then Char.ofNat (c.toNat + 32)
  else if c.toNat = 1025 then Char.ofNat 1105
  else c

/-- Uppercase, the inverse direction of `cyrLowerChar`; used by the
sentence-boundary logic (`text[j].upper() == text[j]`). -/
def cyrUpperChar (c : Char) : Char :=
  if 97 ≤ c.toNat ∧ c.toNat ≤ 122 then Char.ofNat (c.toNat - 32)
  else if 1072 ≤ c.toNat ∧ c.toNat ≤ 1103 then Char.ofNat (c.toNat - 32)
  else if c.toNat = 1105 then Char.ofNat 1025
  else c

/-- Python `str.isalpha()` restricted to the Latin and Cyrillic letters the
code manipulates. -/
def isAlphaPy (c : Char) : Bool :=
  (65 ≤ c.toNat ∧ c.toNat ≤ 90) ∨ (97 ≤ c.toNat ∧ c.toNat ≤ 122) ∨
  (1040 ≤ c.toNat ∧ c.toNat ≤ 1103) ∨ c.toNat = 1025 ∨ c.toNat = 1105

def lowerL (l : List Char) : List Char := l.map cyrLowerChar

def lowerS (s : String) : String := ⟨lowerL s.data⟩

/-- `l₁` occurs as a contiguous prefix of `l₂`. -/
def listIsPref : List Char → List Char → Bool
  | [], _ => true
  | _ :: _, [] => false
  | a :: as, b :: bs => a = b && listIsPref as bs

/-- `needle` occurs as a contiguous subsequence of `hay` (Python
`needle in hay` on strings). -/
def containsSeq (needle : List Char) : List Char → Bool
  | [] => listIsPref needle []
  | x :: xs => listIsPref needle (x :: xs) || containsSeq needle xs

/-- Python `needle in hay` for strings. -/
def strIn (needle hay : String) : Bool := containsSeq needle.data hay.data

def dropLeadingWs : List Char → List Char
  | [] => []
  | c :: r => if c.isWhitespace then dropLeadingWs r else c :: r

/-- Python `str.strip()` (whitespace at both ends). -/
def stripL (l : List Char) : List Char :=
  ((dropLeadingWs (dropLeadingWs l.reverse).reverse))

def stripS (s : String) : String := ⟨stripL s.data⟩

/-- Python lexicographic string comparison (by code point). -/
def lexLeChars : List Char → List Char → Bool
  | [], _ => true
  | _ :: _, [] => false
  | a :: as, b :: bs =>
    if a.toNat < b.toNat then true
    else if b.toNat < a.toNat then false
    else lexLeChars as bs

def strLeB (a b : String) : Bool := lexLeChars a.data b.data

/-- First-occurrence deduplication: the order in which Python inserts keys
into a dict or elements into an ordered traversal of a set. -/
def firstDedupAux [DecidableEq α] (seen : List α) : List α → List α
  | [] => []
  | a :: l => if a ∈ seen then firstDedupAux seen l
              else a :: firstDedupAux (a :: seen) l

def firstDedup [DecidableEq α] (l : List α) : List α := firstDedupAux [] l

/-- Insert into a sorted list, before the first element it is `le` to:
for a total preorder `le` this is the unique stable (insertion) sort, which
is what Python `sorted` computes.  (`List.mergeSort` is avoided because its
well-founded recursion does not reduce in the kernel.) -/
def insSorted (le : α → α → Bool) (a : α) : List α → List α
  | [] => [a]
  | b :: bs => if le a b then a :: b :: bs else b :: insSorted le a bs

/-- Stable sort by the boolean relation `le` (Python `sorted`). -/
def insSort (le : α → α → Bool) : List α → List α
  | [] => []
  | a :: as => insSorted le a (insSort le as)

/-- Python `sorted` of a collection of strings. -/
def sortStrs (l : List String) : List String := insSort strLeB l

/- ===================================================================
   Section 2: app/services/validation/verifier.py
   =================================================================== -/

/-- A source reference as the provenance checker reads it off the payload
dict: `s.get("file_id")`, `s.get("page")`. -/
structure VSource where
  file_id : Option String
  page : Option Int
  deriving DecidableEq, Repr

/-- A fact as `run_full_verification` receives it (a `LegalFact` dumped to
a dict): only the keys the verifier reads are modelled. -/
structure VFact where
  fact_id : Option String
  sources : List VSource
  /-- `float(f.get("confidence", 0.0))`, in thousandths. -/
  confidence : Int
  critical : Bool
  token_id : Option String
  deriving DecidableEq, Repr

/-- One entry of the LLM sentence map: `s.get("text")`, `s.get("tokens")`. -/
structure VSentence where
  text : Option String
  tokens : List String
  deriving DecidableEq, Repr

/-- The verification-policy settings the provenance check reads
(`app/utils/config.py`, class `Settings`). -/
structure VSettings where
  REQUIRE_TWO_SOURCES : Bool
  /-- `0.90` by default, in thousandths. -/
  CONF_THRESH_CRITICAL : Int
  /-- `0.75` by default, in thousandths. -/
  CONF_THRESH_DEFAULT : Int
  deriving DecidableEq, Repr

/-- The default field values of `Settings`. -/
def defaultSettings : VSettings :=
  { REQUIRE_TWO_SOURCES := true
    CONF_THRESH_CRITICAL := 900
    CONF_THRESH_DEFAULT := 750 }

/-- The violation records `verify_facts_provenance` can emit, keyed by
their `"issue"` string. -/
inductive PViolation where
  | no_sources (fact_id : Option String)
  | only_one_source (fact_id : Option String)
  | low_confidence_critical (fact_id : Option String) (value threshold : Int)
  | low_confidence_default (fact_id : Option String) (value threshold : Int)
  | source_missing_file_id (fact_id : Option String)
  | source_missing_page (fact_id : Option String)
  deriving DecidableEq, Repr

/-- Python truthiness of an optional string (`if not s.get("file_id")`). -/
def truthyStr : Option String → Bool
  | none => false
  | some s => s ≠ ""

/-- The `(file_id, page)` pairs of the sources whose `file_id` is not
`None` (the `uniq` set built by `verify_facts_provenance`); returned
first-occurrence deduplicated, as only its cardinality is used. -/
def uniqSources (srcs : List VSource) : List (Option String × Option Int) :=
  firstDedup ((srcs.filter (fun s => s.file_id ≠ none)).map
    (fun s => (s.file_id, s.page)))

/-- The violations `verify_facts_provenance` emits for one fact, in
emission order. -/
def factProvenanceViolations (st : VSettings) (f : VFact) : List PViolation :=
  if f.sources = [] then [.no_sources f.fact_id]
  else
    (if st.REQUIRE_TWO_SOURCES ∧ (uniqSources f.sources).length < 2 then
      [.only_one_source f.fact_id] else [])
    ++ (if f.critical ∧ f.confidence < st.CONF_THRESH_CRITICAL then
      [.low_confidence_critical f.fact_id f.confidence st.CONF_THRESH_CRITICAL]
      else [])
    ++ (if ¬ f.critical ∧ f.confidence < st.CONF_THRESH_DEFAULT then
      [.low_confidence_default f.fact_id f.confidence st.CONF_THRESH_DEFAULT]
      else [])
    ++ (f.sources.flatMap (fun s =>
        (if ¬ truthyStr s.file_id then [.source_missing_file_id f.fact_id]
         else [])
        ++ (if s.page = none then [.source_missing_page f.fact_id] else [])))

structure ProvenanceReport where
  ok : Bool
  violations : List PViolation
  deriving DecidableEq, Repr

/-- `verify_facts_provenance` (verifier.py lines 15–71). -/
def verify_facts_provenance (st : VSettings) (facts : List VFact) :
    ProvenanceReport :=
  let vs := facts.flatMap (factProvenanceViolations st)
  { ok := vs.isEmpty, violations := vs }

structure TokenReport where
  ok : Bool
  total_used : Nat
  total_available : Nat
  unknown_tokens : List String
  unused_tokens : List String
  deriving DecidableEq, Repr

/-- `verify_token_alignment` (verifier.py lines 112–130): set-level
comparison of the tokens the LLM used against the available token ids. -/
def verify_token_alignment (used_tokens all_token_ids : List String) :
    TokenReport :=
  let used := firstDedup used_tokens
  let allowed := firstDedup all_token_ids
  let unknown := sortStrs (used.filter (fun t => ¬ allowed.contains t))
  let unused := sortStrs (allowed.filter (fun t => ¬ used.contains t))
  { ok := unknown.length = 0
    total_used := used.length
    total_available := allowed.length
    unknown_tokens := unknown
    unused_tokens := unused }

/-- The violation records of `verify_sentence_token_alignment`. -/
inductive SViolation where
  | no_sentence_map
  | empty_sentence_text (index : Nat)
  | sentence_without_tokens (index : Nat) (text : String)
  | unknown_token_in_sentence (index : Nat) (token : String) (text : String)
  | used_tokens_without_sentence (tokens : List String)
  | sentence_tokens_not_marked_used (tokens : List String)
  deriving DecidableEq, Repr

structure SentenceReport where
  ok : Bool
  sentence_count : Nat
  /-- `mapped_tokens` is absent from the early-return dict of the empty
  sentence map, hence the `Option`. -/
  mapped_tokens : Option (List String)
  violations : List SViolation
  deriving DecidableEq, Repr

/-- The per-sentence part of the loop body: violations contributed by one
indexed sentence, and the tokens it adds to `from_sentences`. -/
def sentenceEntry (allIds : List String) (idx : Nat) (s : VSentence) :
    List SViolation × List String :=
  let text := stripS (s.text.getD "")
  if text = "" then ([.empty_sentence_text idx], [])
  else if s.tokens = [] then ([.sentence_without_tokens idx text], [])
  else
    (s.tokens.filterMap (fun t =>
      if ¬ allIds.contains t then
        some (.unknown_token_in_sentence idx t text)
      else none),
     s.tokens)

/-- `verify_sentence_token_alignment` (verifier.py lines 137–209). -/
def verify_sentence_token_alignment (sentence_map : List VSentence)
    (used_tokens all_token_ids : List String) : SentenceReport :=
  if sentence_map = [] then
    { ok := false
      sentence_count := 0
      mapped_tokens := none
      violations := [.no_sentence_map] }
  else
    let allIds := firstDedup all_token_ids
    let entries := (sentence_map.enumFrom 1).map
      (fun p => sentenceEntry allIds p.1 p.2)
    let perSentence := entries.flatMap Prod.fst
    let fromSentences := firstDedup (entries.flatMap Prod.snd)
    let usedSet := firstDedup used_tokens
    let usedNotInSentences :=
      sortStrs (usedSet.filter (fun t => ¬ fromSentences.contains t))
    let inSentencesNotUsed :=
      sortStrs (fromSentences.filter (fun t => ¬ usedSet.contains t))
    let violations := perSentence
      ++ (if usedNotInSentences ≠ [] then
            [.used_tokens_without_sentence usedNotInSentences] else [])
      ++ (if inSentencesNotUsed ≠ [] then
            [.sentence_tokens_not_marked_used inSentencesNotUsed] else [])
    { ok := violations.length = 0
      sentence_count := sentence_map.length
      mapped_tokens := some (sortStrs fromSentences)
      violations := violations }

/-- The available token ids as `run_full_verification` (lines 244–248)
collects them from the fact dicts: the truthy `token_id` values. -/
def allTokenIds (facts : List VFact) : List String :=
  facts.filterMap (fun f => if truthyStr f.token_id then f.token_id else none)

/-- The token/sentence alignment verdict of `run_full_verification`
(lines 250–258): the conjunction of the `ok` flags of the two alignment
reports, on the token ids collected from the facts. -/
def alignment_verification (facts : List VFact) (used_tokens : List String)
    (sentence_map : List VSentence) : Bool :=
  (verify_token_alignment used_tokens (allTokenIds facts)).ok &&
  (verify_sentence_token_alignment sentence_map used_tokens
    (allTokenIds facts)).ok

/- ===================================================================
   Section 3: a small regular-expression engine

   `app/utils/sentence_splitter.py` and the tokenizer's date pattern use
   Python `re` with a fixed, small set of patterns.  The engine below
   implements exactly the constructs those patterns use, with Python's
   ordering semantics: alternation prefers the left branch, `?`, `*` and
   counted repetition are greedy, and substitution scans left to right
   taking at each position the backtracking engine's first match.
   =================================================================== -/

inductive RE where
  | lit : List Char → RE
  | cls : List Char → RE
  | rng : Char → Char → RE
  | digit : RE
  | space : RE
  | wordB : RE
  | seq : RE → RE → RE
  | alt : RE → RE → RE
  | opt : RE → RE
  | star : RE → RE
  deriving Repr

/-- Python `\w` for the alphabets in use (letters, digits, underscore). -/
def isWordChar (c : Char) : Bool := isAlphaPy c ∨ c.isDigit ∨ c = '_'

def isWordOpt : Option Char → Bool
  | none => false
  | some c => isWordChar c

/-- `\b`: the previous and next characters disagree on wordness. -/
def atBoundary (prev next : Option Char) : Bool :=
  isWordOpt prev ≠ isWordOpt next

def lastOr (prev : Option Char) (cs : List Char) : Option Char :=
  match cs.getLast? with
  | some c => some c
  | none => prev

/-- One level of the backtracking matcher, structurally recursive in the
pattern: all ways `re` can match a prefix of `input`, as
`(consumed, new previous character, rest)`, in Python's preference order
(left alternative first, greedy repetition).  `prev` is the character just
before `input` (for `\b`).  `next` continues a `star` at the next fuel
level. -/
def reMatchGo
    (next : RE → Option Char → List Char →
      List (List Char × Option Char × List Char))
    (re : RE) (prev : Option Char) (input : List Char) :
    List (List Char × Option Char × List Char) :=
  match re with
  | .lit s =>
      if listIsPref s input then [(s, lastOr prev s, input.drop s.length)]
      else []
  | .cls cs =>
      match input with
      | [] => []
      | c :: rest => if cs.contains c then [([c], some c, rest)] else []
  | .rng a b =>
      match input with
      | [] => []
      | c :: rest =>
          if a.toNat ≤ c.toNat ∧ c.toNat ≤ b.toNat then [([c], some c, rest)]
          else []
  | .digit =>
      match input with
      | [] => []
      | c :: rest => if c.isDigit then [([c], some c, rest)] else []
  | .space =>
      match input with
      | [] => []
      | c :: rest => if c.isWhitespace then [([c], some c, rest)] else []
  | .wordB =>
      if atBoundary prev input.head? then [([], prev, input)] else []
  | .seq a b =>
      (reMatchGo next a prev input).flatMap (fun r =>
        (reMatchGo next b r.2.1 r.2.2).map (fun q =>
          (r.1 ++ q.1, q.2.1, q.2.2)))
  | .alt a b => reMatchGo next a prev input ++ reMatchGo next b prev input
  | .opt a => reMatchGo next a prev input ++ [([], prev, input)]
  | .star a =>
      ((reMatchGo next a prev input).filter
          (fun r => r.1 ≠ [])).flatMap (fun r =>
        (next (.star a) r.2.1 r.2.2).map (fun q =>
          (r.1 ++ q.1, q.2.1, q.2.2)))
      ++ [([], prev, input)]

/-- The backtracking matcher.  `fuel` bounds `star` unfolding; callers
pass at least `input.length + 1`, which is enough because every counted
`star` iteration consumes at least one character. -/
def reMatch : Nat → RE → Option Char → List Char →
    List (List Char × Option Char × List Char)
  | 0 => reMatchGo (fun _ prev input => [([], prev, input)])
  | fuel + 1 => reMatchGo (reMatch fuel)

/-- Does the pattern match anywhere in the input (Python `re.search`)? -/
def reTest (re : RE) : Option Char → List Char → Bool
  | prev, [] => ¬ (reMatch 1 re prev []).isEmpty
  | prev, x :: xs =>
      if ¬ (reMatch (xs.length + 2) re prev (x :: xs)).isEmpty then true
      else reTest re (some x) xs

def reSearch (re : RE) (l : List Char) : Bool := reTest re none l

/-- Python `re.sub(pattern, f, text)` for a match-transforming `f`:
leftmost scan, non-overlapping, each match replaced by `f match`. -/
def reSubAux (re : RE) (f : List Char → List Char) :
    Nat → Option Char → List Char → List Char
  | 0, _, input => input
  | _ + 1, _, [] => []
  | fuel + 1, prev, x :: xs =>
      match reMatch (xs.length + 2) re prev (x :: xs) with
      | r :: _ =>
          if r.1 = [] then x :: reSubAux re f fuel (some x) xs
          else f r.1 ++ reSubAux re f fuel r.2.1 r.2.2
      | [] => x :: reSubAux re f fuel (some x) xs

def reSub (re : RE) (f : List Char → List Char) (input : List Char) :
    List Char :=
  reSubAux re f (input.length + 1) none input

/- Pattern-building helpers. -/

def rcat (l : List RE) : RE := l.foldr RE.seq (.lit [])

def rstr (s : String) : RE := .lit s.data

/-- Greedy nested option chain: `roptChain r k` is `(r(r(…)?)?)?`
with `k` levels, preferring the longest expansion first. -/
def roptChain (r : RE) : Nat → RE
  | 0 => .lit []
  | k + 1 => .opt (.seq r (roptChain r k))

/-- `\d{m, m+k}` (greedy). -/
def rdig (m k : Nat) : RE :=
  rcat (List.replicate m RE.digit ++ [roptChain RE.digit k])

/-- Left-preferring alternation of a list of patterns. -/
def ralts : List RE → RE
  | [] => .cls []
  | [r] => r
  | r :: rest => .alt r (ralts rest)

def rSpaceStar : RE := .star .space
def rSpacePlus : RE := .seq .space (.star .space)
def rDigPlus : RE := .seq .digit (.star .digit)

/- ===================================================================
   Section 4: app/utils/sentence_splitter.py
   =================================================================== -/

/-- Exceptions the embedded code can raise. -/
inductive PyErr where
  /-- `AttributeError` — e.g. `.strip()` on a truthy non-string. -/
  | attributeError
  /-- `TypeError` from `_validate`. -/
  | typeError
  /-- `ValueError` from `_validate` (`text too large`). -/
  | valueError
  /-- A pydantic `ValidationError` — e.g. `SourceRef(file_id=None, …)`. -/
  | validationError
  deriving DecidableEq, Repr

def MAX_LEN : Nat := 700000

/-- The class `[А-ЯЁ]`. -/
def upperCyrCls : RE := .alt (.rng 'А' 'Я') (.cls ['Ё'])

def ruMonths : List String :=
  ["января", "февраля", "марта", "апреля", "мая", "июня",
   "июля", "августа", "сентября", "октября", "ноября", "декабря"]

def kzMonths : List String :=
  ["қаңтар", "ақпан", "наурыз", "сәуір", "мамыр", "маусым",
   "шілде", "тамыз", "қыркүйек", "қазан", "қараша", "желтоқсан"]

/-- `DATE_PATTERNS`, in source order. -/
def DATE_PATTERNS : List RE :=
  [ -- \b\d{1,2}\.\d{1,2}\.\d{2,4}(?:\s*г\.?)?\b
    rcat [.wordB, rdig 1 1, rstr ".", rdig 1 1, rstr ".", rdig 2 2,
          .opt (rcat [rSpaceStar, rstr "г", .opt (rstr ".")]), .wordB],
    -- \b\d{1,2}\/\d{1,2}\/\d{2,4}(?:\s*г\.?)?\b
    rcat [.wordB, rdig 1 1, rstr "/", rdig 1 1, rstr "/", rdig 2 2,
          .opt (rcat [rSpaceStar, rstr "г", .opt (rstr ".")]), .wordB],
    -- \b\d{4}-\d{1,2}-\d{1,2}\b
    rcat [.wordB, rdig 4 0, rstr "-", rdig 1 1, rstr "-", rdig 1 1, .wordB],
    -- \b\d{1,2}-\d{1,2}-\d{2,4}\b
    rcat [.wordB, rdig 1 1, rstr "-", rdig 1 1, rstr "-", rdig 2 2, .wordB],
    -- \b\d{4}\s*г\.\b
    rcat [.wordB, rdig 4 0, rSpaceStar, rstr "г.", .wordB],
    -- \b\d{1,2}\s+(?:russian months)\s+\d{4}\b
    rcat [.wordB, rdig 1 1, rSpacePlus, ralts (ruMonths.map rstr),
          rSpacePlus, rdig 4 0, .wordB],
    -- \b\d{1,2}\s+(?:kazakh months)\s+\d{4}\b
    rcat [.wordB, rdig 1 1, rSpacePlus, ralts (kzMonths.map rstr),
          rSpacePlus, rdig 4 0, .wordB] ]

/-- `SAFE_PATTERNS`, in source order. -/
def SAFE_PATTERNS : List RE :=
  [ rcat [upperCyrCls, rstr ".", upperCyrCls, rstr "."],
    rcat [.rng 'A' 'Z', rstr ".", .rng 'A' 'Z', rstr "."],
    -- ст\.?\s*\d{1,3}(?:[-–]\d+)?
    rcat [rstr "ст", .opt (rstr "."), rSpaceStar, rdig 1 2,
          .opt (rcat [.cls ['-', '–'], rDigPlus])],
    rcat [rstr "статья", rSpaceStar, rdig 1 2],
    rcat [.wordB, rstr "тг."],
    rcat [.wordB, rstr "руб."],
    rcat [.wordB, rstr "дол."],
    rcat [.wordB, rstr "ул."],
    rcat [.wordB, rstr "д."],
    rcat [.wordB, rstr "кв."],
    rcat [.wordB, rstr "пр."],
    rcat [.wordB, rstr "см."],
    rcat [.wordB, rstr "им."],
    rcat [.wordB, rstr "т.е."],
    rcat [.wordB, rstr "т.о."],
    rcat [.wordB, rstr "т.к."],
    rcat [.wordB, rstr "т.д."],
    rcat [.wordB, rstr "т.п."],
    rcat [rDigPlus, rstr ".", rDigPlus] ]

/-- Python `str.replace` (left-to-right, non-overlapping). -/
def replaceSeqAux (pat rep : List Char) : Nat → List Char → List Char
  | 0, l => l
  | _ + 1, [] => []
  | fuel + 1, x :: xs =>
      if pat ≠ [] ∧ listIsPref pat (x :: xs) then
        rep ++ replaceSeqAux pat rep fuel ((x :: xs).drop pat.length)
      else x :: replaceSeqAux pat rep fuel xs

def replaceSeqL (pat rep l : List Char) : List Char :=
  replaceSeqAux pat rep (l.length + 1) l

/-- `_normalize`: newline, ellipsis, dash and non-breaking-space
normalization. -/
def normalizePy (l : List Char) : List Char :=
  [("\r\n", "\n"), ("\r", "\n"), ("…", "..."),
   ("—", "-"), ("–", "-"), ("−", "-"),
   (" ", " "), (" ", " "), (" ", " ")].foldl
    (fun t p => replaceSeqL p.1.data p.2.data t) l

def dateRepl (m : List Char) : List Char :=
  m.flatMap (fun c =>
    if c = '.' then "__DOT__".data
    else if c = '/' then "__SLASH__".data
    else [c])

def dotRepl (m : List Char) : List Char :=
  m.flatMap (fun c => if c = '.' then "__DOT__".data else [c])

/-- `_protect_dates`. -/
def protectDates (l : List Char) : List Char :=
  DATE_PATTERNS.foldl (fun t p => reSub p dateRepl t) l

/-- `_protect_safe_tokens`. -/
def protectSafeTokens (l : List Char) : List Char :=
  SAFE_PATTERNS.foldl (fun t p => reSub p dotRepl t) l

/-- `_restore`. -/
def restoreL (l : List Char) : List Char :=
  replaceSeqL "__SLASH__".data "/".data (replaceSeqL "__DOT__".data ".".data l)

def ENDINGS : List Char := ['.', '!', '?']

def CLOSERS : List Char := ['"', '\'', '»', '”', '›', ')', ']', Char.ofNat 125]

def OPENERS : List Char := ['"', '«', '“', '‘', '(', '[', Char.ofNat 123, '-']

def nthChar (l : List Char) (n : Nat) : Option Char := (l.drop n).head?

/-- First index `≥ j` at which `p` fails (or the end of text):
the `while`-advance of `_is_sentence_boundary`. -/
def skipWhileIdxAux (text : List Char) (p : Char → Bool) : Nat → Nat → Nat
  | 0, j => j
  | fuel + 1, j =>
      match nthChar text j with
      | some c => if p c then skipWhileIdxAux text p fuel (j + 1) else j
      | none => j

def skipWhileIdx (text : List Char) (p : Char → Bool) (j : Nat) : Nat :=
  skipWhileIdxAux text p (text.length + 1) j

/-- `_is_sentence_boundary(text, idx)`. -/
def is_sentence_boundary (text : List Char) (idx : Nat) : Bool :=
  match nthChar text idx with
  | none => false
  | some ch =>
    if ¬ ENDINGS.contains ch then false
    else if nthChar text (idx + 1) = some '.' then false
    else
      let j := skipWhileIdx text (fun c => CLOSERS.contains c) (idx + 1)
      match nthChar text j with
      | none => true
      | some c =>
        if isAlphaPy c ∧ cyrUpperChar c = c then true
        else
          let j2 := skipWhileIdx text (fun c => c.isWhitespace) j
          match nthChar text j2 with
          | none => true
          | some c2 =>
            if isAlphaPy c2 ∧ cyrUpperChar c2 = c2 then true
            else if c2.isDigit then true
            else if OPENERS.contains c2 then true
            else false

def MIN_SENT_LEN : Nat := 2

/-- The loop body of `_manual_split`: walk the text, flush the buffer at
every sentence boundary, keep stripped pieces of length ≥ 2. -/
def msGo (full : List Char) : List Char → Nat → List Char → List (List Char)
  | [], _, buf =>
      let s := stripL buf
      if MIN_SENT_LEN ≤ s.length then [s] else []
  | c :: rest, i, buf =>
      let buf2 := buf ++ [c]
      if is_sentence_boundary full i then
        let s := stripL buf2
        (if MIN_SENT_LEN ≤ s.length then [s] else [])
          ++ msGo full rest (i + 1) []
      else msGo full rest (i + 1) buf2

def manualSplit (l : List Char) : List (List Char) := msGo l l 0 []

/-- The final-cleanup pattern `[.!?,;:\-\s]+` as a direct check. -/
def isPunctOnly (l : List Char) : Bool :=
  l ≠ [] ∧ l.all (fun c =>
    c ∈ ['.', '!', '?', ',', ';', ':', '-'] ∨ c.isWhitespace)

/-- `split_into_sentences` (sentence_splitter.py lines 217–238).
`_validate`'s `isinstance` check is enforced by the Lean type; the length
check can still raise. -/
def split_into_sentences (text : String) : Except PyErr (List String) :=
  if MAX_LEN < text.data.length then .error .valueError
  else
    let t := normalizePy text.data
    let t := protectDates t
    let t := protectSafeTokens t
    let raw := manualSplit t
    let restored := raw.map (fun s => stripL (restoreL s))
    let clean := restored.filter (fun s => ¬ isPunctOnly s)
    .ok (clean.map (fun l => (⟨l⟩ : String)))

/- ===================================================================
   Section 5: app/services/facts/fact_models.py and fact_tokenizer.py
   =================================================================== -/

structure SourceRef where
  file_id : String
  page : Int
  span : Option (Int × Int) := none
  deriving DecidableEq, Repr

/-- `FactToken`; `token_id` (a fresh uuid no code path reads) is omitted
from the model. -/
structure FactToken where
  type : String
  value : String
  source : SourceRef
  deriving DecidableEq, Repr

/-- `LegalFact`; `created_at` (a fresh timestamp no code path reads) is
omitted from the model. -/
structure LegalFact where
  fact_id : String
  text : Option String := none
  span_text : Option String := none
  role : Option String := none
  event_type : Option String := none
  tokens : List FactToken := []
  source_refs : List SourceRef := []
  sentence_index : Option Int := none
  context_before : Option String := none
  context_after : Option String := none
  article_hints : List String := []
  /-- In thousandths (`0.45` is `450`). -/
  confidence : Option Int := none
  deriving DecidableEq, Repr

namespace FactTokenizer

def FIRST_PERSON : List String :=
  ["я", "мне", "меня", "мной", "мы", "нам", "нас",
   "узнал", "узнала", "понимаю", "понял", "поняла", "считаю", "думаю"]

def SUSPECT_VERBS : List String :=
  ["получил", "получила", "присвоил", "присвоила",
   "привлек", "привлёк", "привлекла", "вывел", "вывела",
   "взял", "взяла", "забрал", "забрала"]

def FRAUD : List String :=
  ["обман", "мошеннич", "ввел в заблуждение", "ввёл в заблуждение",
   "заблужден", "заблуждён", "хищен"]

def INVEST : List String :=
  ["инвестиц", "проценты", "дивиденды", "доход", "влож", "вклад", "депозит"]

def ECONOMIC : List String :=
  ["получил", "получила", "перевел", "перевела", "снял", "сняла",
   "пополнил", "пополнила", "отправил", "отправила",
   "зачислил", "зачислила", "вывел", "вывела", "оплатил", "оплатила"]

def ADMIN : List String :=
  ["администратор", "модератор", "рекламировал", "рекламировала",
   "создавал группы", "создал группу", "удалял сообщения"]

def SCHEME : List String :=
  ["схема", "организованная группа", "структура", "механизм",
   "привлечение вкладчиков", "вовлечение вкладчиков",
   "финансовая пирамида", "инвестиционная пирамида", "признаки пирамиды"]

def CRYPTO : List String :=
  ["usdt", "bitcoin", "btc", "eth", "binance", "okx", "bybit",
   "wallet", "кошелек", "кошелёк"]

def CHANNEL : List String :=
  ["kaspi", "halyk", "qiwi", "visa", "mastercard",
   "fortе", "forte", "iban", "swift", "счет", "счёт"]

def PROCESSUAL : List String :=
  ["разъяснены права",
   "уведомлен об уголовной ответственности",
   "уведомлена об уголовной ответственности",
   "составлен протокол", "составлено постановление", "составил рапорт",
   "зарегистрирован в ердр", "зарегистрировано в ердр",
   "зарегистрировано в куи",
   "изъяты документы", "изъял документы",
   "приобщены к материалам дела", "назначена экспертиза",
   "дело направлено в суд", "уголовное дело возбуждено",
   "начато досудебное расследование", "досудебное расследование начато"]

/-- `ROLE_LABELS`, in dict insertion order. -/
def ROLE_LABELS : List (String × String) :=
  [("потерпевш", "victim"), ("вкладчик", "victim"), ("клиент", "victim"),
   ("подозреваем", "suspect"), ("обвиняем", "suspect"),
   ("организатор", "organizer"), ("руководитель", "organizer"),
   ("свидетел", "witness"), ("заявител", "applicant")]

/-- The tokenizer's `_date` pattern: word-bounded `\d{1,2}` sep
`\d{1,2}` sep `\d{2,4}` with sep a dot, slash or dash, then an optional
`г.` suffix (IGNORECASE only affects the letter `г`). -/
def dateRe : RE :=
  rcat [.wordB, rdig 1 1, .cls ['.', '/', '-'], rdig 1 1,
        .cls ['.', '/', '-'], rdig 2 2,
        .opt (rcat [rSpaceStar, .cls ['г', 'Г'], .opt (rstr ".")]), .wordB]

/-- `fact_tokenizer` builds eight token families with `re` patterns
(entities, amounts, dates, person names, phones, accounts, crypto
addresses, article references) before the keyword families.  The claims
below do not depend on which strings those patterns match, so the exact
`(type, value)` pairs the regex section of `_extract_tokens` would `add`
for a sentence are supplied by an oracle parameter; every theorem about
the pipeline is proved for all oracles. -/
def RegexOracle := String → List (String × String)

/-- The keyword part of `_extract_tokens`: the `(type, value)` pairs the
keyword loops `add`, in execution order. -/
def keywordPairs (sent : String) : List (String × String) :=
  let low := lowerS sent
  (CHANNEL.filter (fun kw => strIn kw low)).map (fun kw => ("channel", kw))
  ++ (CRYPTO.filter (fun kw => strIn kw low)).map
      (fun kw => ("crypto_flag", kw))
  ++ (FRAUD.filter (fun kw => strIn kw low)).map (fun kw => ("fraud_flag", kw))
  ++ (INVEST.filter (fun kw => strIn kw low)).map
      (fun kw => ("invest_flag", kw))
  ++ (ECONOMIC.filter (fun kw => strIn kw low)).map
      (fun kw => ("economic_flag", kw))
  ++ (ADMIN.filter (fun kw => strIn kw low)).map (fun kw => ("admin_flag", kw))
  ++ (SCHEME.filter (fun kw => strIn kw low)).map
      (fun kw => ("scheme_flag", kw))
  ++ (PROCESSUAL.filter (fun kw => strIn kw low)).map
      (fun kw => ("processual_flag", kw))
  ++ ROLE_LABELS.filterMap (fun p =>
      if strIn p.1 low then some ("role_label", p.2) else none)

/-- The local `add` of `_extract_tokens`, folded over all candidate
`(type, value)` pairs: skip empty values, deduplicate on
`(type, value.lower())`, keep first occurrences. -/
def runAdds (src : SourceRef) (pairs : List (String × String)) :
    List FactToken :=
  (pairs.foldl
    (fun (st : List (String × String) × List FactToken) p =>
      if p.2 = "" then st
      else
        let key := (p.1, lowerS p.2)
        if st.1.contains key then st
        else (key :: st.1, st.2 ++ [{ type := p.1, value := p.2, source := src }]))
    ([], [])).2

/-- The `has_fact_marker` keyword list of `_is_pure_question`. -/
def QUESTION_FACT_MARKERS : List String :=
  ["тенге", "usdt", "доллар", "перевел", "перевела",
   "влож", "вклад", "финансовая пирамида",
   "инвестиционная пирамида", "платформ", "проект"]

/-- `_is_pure_question` (fact_tokenizer.py lines 499–525). -/
def is_pure_question (sent : String) : Bool :=
  let low := lowerS sent
  if ¬ strIn "вопрос:" low ∧ ¬ strIn "вопрос :" low ∧ ¬ strIn "?" sent then
    false
  else if QUESTION_FACT_MARKERS.any (fun kw => strIn kw low) then
    false
  else true

def strStarts (pre s : String) : Bool := listIsPref pre.data s.data

def CRIMINAL_TYPES : List String :=
  ["amount", "economic_flag", "fraud_flag", "invest_flag",
   "scheme_flag", "crypto_flag", "crypto", "channel",
   "account", "entity", "project", "platform", "organization"]

/-- `_is_pure_victim_subjective` (lines 530–563). -/
def is_pure_victim_subjective (sent : String) (tokens : List FactToken) :
    Bool :=
  let low := lowerS sent
  if ¬ FIRST_PERSON.any (fun w => strIn w low) then false
  else if strIn "подозреваем" low ∨ strIn "обвиняем" low ∨
          strIn "организатор" low then false
  else if tokens.any (fun t => t.type = "role_label" ∧
            (strStarts "suspect" (lowerS t.value) ∨
             strStarts "organizer" (lowerS t.value))) then false
  else if CRIMINAL_TYPES.any
            (fun ct => (tokens.map (fun t => t.type)).contains ct) then false
  else true

/-- `_detect_role` (lines 568–618). -/
def detect_role (tokens : List FactToken) (sent : String) : String :=
  let types := tokens.map (fun t => t.type)
  let low := lowerS sent
  if types.contains "amount" ∧ SUSPECT_VERBS.any (fun v => strIn v low) then
    "suspect_action"
  else if types.contains "fraud_flag" ∧ types.contains "amount" then
    "fraud_action"
  else if types.contains "invest_flag" ∧
          (types.contains "amount" ∨ types.contains "economic_flag") then
    "investment_event"
  else if types.contains "invest_flag" then "investment_context"
  else if types.contains "scheme_flag" then "scheme_marker"
  else if types.contains "entity" ∨ types.contains "project" ∨
          types.contains "platform" ∨ types.contains "organization" then
    "entity_reference"
  else if types.contains "admin_flag" then "admin_action"
  else if types.contains "crypto_flag" ∨ types.contains "crypto" then
    "crypto_operation"
  else if types.contains "channel" ∨ types.contains "account" then
    "digital_transfer"
  else if types.contains "economic_flag" then "economic_action"
  else if strIn "victim"
        ⟨((tokens.filter (fun t => t.type = "role_label")).map
            (fun t => (lowerS t.value).data)).flatten⟩ then
    (if types.contains "amount" ∨ types.contains "economic_flag" ∨
        types.contains "invest_flag" then "victim_loss"
     else "victim_statement")
  else if strIn "потерпев" low then
    (if types.contains "amount" ∨ types.contains "economic_flag" ∨
        types.contains "invest_flag" then "victim_loss"
     else "victim_statement")
  else if types.contains "role_label" then "role_statement"
  else "generic_fact"

/-- `_article_hints` (lines 623–630). -/
def article_hints (t : String) : List String :=
  let tl := lowerS t
  (if strIn "мошеннич" tl ∨ strIn "обман" tl then ["190"] else [])
  ++ (if strIn "пирамид" tl ∨ strIn "инвестиц" tl ∨ strIn "вклад" tl then
        ["217"] else [])

/-- The token-type weights of `_confidence`, in thousandths. -/
def weightOf (tp : String) : Int :=
  match ([("entity", (400 : Int)), ("project", 400), ("platform", 400),
          ("organization", 350), ("amount", 400), ("economic_flag", 350),
          ("fraud_flag", 450), ("invest_flag", 400), ("scheme_flag", 400),
          ("crypto", 350), ("crypto_flag", 300), ("channel", 250),
          ("account", 250), ("date", 120), ("person", 100),
          ("address", 50)].lookup tp) with
  | some w => w
  | none => 50

/-- Python `round(x, 3)`: on the thousandths grid every value the code
produces is already an exact multiple of `0.001`, so rounding to three
decimals is the identity. -/
def round3 (q : Int) : Int := q

/-- `score * 0.8` in thousandths; every score reaching this line is a sum
of hundredth-grid weights, so the division is exact. -/
def mul08 (q : Int) : Int := q * 800 / 1000

/-- `_confidence` (lines 635–678), in thousandths (`1.0` is `1000`). -/
def conf_model (fact : LegalFact) : Int :=
  let types := firstDedup (fact.tokens.map (fun t => t.type))
  let text := lowerS (fact.text.getD "")
  let score := types.foldl (fun s tp => s + weightOf tp) 0
  if fact.role = some "suspect_action" ∧ types.contains "amount" ∧
     SUSPECT_VERBS.any (fun v => strIn v text) then 1000
  else
    let score :=
      if (fact.role = some "fraud_action" ∨
          fact.role = some "investment_event") ∧ types.contains "amount" then
        score + 300
      else score
    let score :=
      if FIRST_PERSON.any (fun w => strIn w text) ∧
         types.contains "fraud_flag" ∧ ¬ types.contains "amount" then
        mul08 score
      else score
    let score := min 1000 (round3 score)
    if score < 50 then 0 else score

/-- The value a Python `dict` holds under `"text"`: a string, `None`, or a
non-string (whose Python truthiness decides whether `.strip()` is even
attempted). -/
inductive PyText where
  | str (s : String)
  | noneV
  | other (truthy : Bool)
  deriving DecidableEq, Repr

/-- One entry of the `docs` batch given to `tokenize`:
`doc.get("file_id")`, `doc.get("text")`, `doc.get("page", 1)`. -/
structure TDoc where
  file_id : Option String
  text : PyText
  page : Int := 1
  deriving DecidableEq, Repr

/-- `_context_windows`. -/
def context_windows (sentences : List String) :
    List (String × String × String) :=
  sentences.enum.map (fun p =>
    (if 0 < p.1 then sentences.getD (p.1 - 1) "" else "",
     p.2,
     sentences.getD (p.1 + 1) ""))

/-- The per-window body of the `tokenize` loop.  A window that any filter
skips contributes `[]`; constructing a `SourceRef` with a missing
`file_id` raises pydantic's validation error. -/
def processSentence (oracle : RegexOracle) (file_id : Option String)
    (page : Int) (idx : Nat) (w : String × String × String) :
    Except PyErr (List LegalFact) :=
  let sent := stripS w.2.1
  if sent = "" then .ok []
  else if is_pure_question sent then .ok []
  else
    match file_id with
    | none => .error .validationError
    | some fid =>
      let src : SourceRef := { file_id := fid, page := page }
      let tokens := runAdds src (oracle sent ++ keywordPairs sent)
      if tokens = [] then .ok []
      else if is_pure_victim_subjective sent tokens then .ok []
      else
        let role := detect_role tokens sent
        let fact : LegalFact :=
          { fact_id := ""
            text := some sent
            span_text := some sent
            role := some role
            event_type := some role
            tokens := tokens
            source_refs := [src]
            sentence_index := some (idx : Int)
            context_before := some (stripS w.1)
            context_after := some (stripS w.2.2)
            article_hints := article_hints sent
            confidence := none }
        let conf := conf_model fact
        if conf ≤ 0 then .ok []
        else .ok [{ fact with confidence := some conf }]

/-- Sequence a list of per-item results, concatenating their facts and
propagating the first raised exception. -/
def collectE : List (Except PyErr (List LegalFact)) →
    Except PyErr (List LegalFact)
  | [] => .ok []
  | e :: rest => e.bind (fun l => (collectE rest).map (fun ls => l ++ ls))

/-- The per-document body of `tokenize`:
`text = (doc.get("text") or "").strip()`, skip if empty, then split and
process every context window. -/
def processDoc (oracle : RegexOracle) (d : TDoc) :
    Except PyErr (List LegalFact) :=
  match d.text with
  | .noneV => .ok []
  | .other true => .error .attributeError
  | .other false => .ok []
  | .str s =>
      let text := stripS s
      if text = "" then .ok []
      else
        (split_into_sentences text).bind (fun sentences =>
          collectE ((context_windows sentences).enum.map
            (fun p => processSentence oracle d.file_id d.page p.1 p.2)))

/-- `tokenize` (fact_tokenizer.py lines 286–338). -/
def tokenize (oracle : RegexOracle) (docs : List TDoc) :
    Except PyErr (List LegalFact) :=
  collectE (docs.map (processDoc oracle))

end FactTokenizer

/- ===================================================================
   Section 6: app/services/facts/fact_graph.py
   =================================================================== -/

namespace FactGraph

/-- Lexicographic order on `(type, value)` pairs: Python `sorted` on
string 2-tuples. -/
def pairLeB (a b : String × String) : Bool :=
  if a.1 = b.1 then strLeB a.2 b.2 else strLeB a.1 b.1

/-- `tokens_key`: the sorted `(type, value)` pairs of a fact's tokens. -/
def tokensKey (f : LegalFact) : List (String × String) :=
  insSort pairLeB (f.tokens.map (fun t => (t.type, t.value)))

/-- Word split on whitespace runs (Python `str.split()`), accumulator in
reverse. -/
def wordsOfAux : List Char → List Char → List (List Char)
  | cur, [] => if cur = [] then [] else [cur.reverse]
  | cur, c :: rest =>
      if c.isWhitespace then
        (if cur = [] then wordsOfAux [] rest
         else cur.reverse :: wordsOfAux [] rest)
      else wordsOfAux (c :: cur) rest

/-- `_normalize_span` (fact_graph.py lines 95–100). -/
def normalize_span (span : Option String) : String :=
  match span with
  | none => ""
  | some s =>
      if s = "" then ""
      else ⟨List.intercalate [' '] (wordsOfAux [] (stripL (lowerL s.data)))⟩

/-- The merge key of `_merge_role_facts`: token pairs, normalized span,
sentence index. -/
def MergeKey := List (String × String) × String × Option Int

instance : DecidableEq MergeKey := by
  unfold MergeKey
  infer_instance

def mergeKey (f : LegalFact) : MergeKey :=
  (tokensKey f, normalize_span f.span_text, f.sentence_index)

/-- Step 1 of a merge: the union of the `(file_id, page)` pairs of both
facts, re-materialized as `SourceRef`s (dropping spans).  CPython's set
iteration order is unspecified; the model fixes first-occurrence order. -/
def combineSources (a b : List SourceRef) : List SourceRef :=
  (firstDedup ((a ++ b).map (fun s => (s.file_id, s.page)))).map
    (fun p => { file_id := p.1, page := p.2 })

/-- Step 2 of a merge: append those tokens of `f` whose `(type, value)`
pair is not yet present. -/
def mergeTokens (e f : List FactToken) : List FactToken :=
  f.foldl (fun acc t =>
    if (acc.map (fun u => (u.type, u.value))).contains (t.type, t.value) then
      acc
    else acc ++ [t]) e

/-- Step 4 of a merge: sorted union of the article hints. -/
def mergeHints (a b : List String) : List String :=
  sortStrs (firstDedup (a ++ b))

/-- The in-place update `_merge_role_facts` performs on the surviving
fact when a duplicate arrives. -/
def mergeInto (e f : LegalFact) : LegalFact :=
  { e with
    source_refs := combineSources e.source_refs f.source_refs
    tokens := mergeTokens e.tokens f.tokens
    article_hints := mergeHints e.article_hints f.article_hints }

/-- One step of the `unique_map` loop, on an insertion-ordered
association list (a Python 3.7+ dict). -/
def insertFact (acc : List (MergeKey × LegalFact)) (f : LegalFact) :
    List (MergeKey × LegalFact) :=
  let k := mergeKey f
  if acc.any (fun p => p.1 = k) then
    acc.map (fun p => if p.1 = k then (p.1, mergeInto p.2 f) else p)
  else acc ++ [(k, f)]

/-- `_merge_role_facts` (fact_graph.py lines 34–90). -/
def merge_role_facts (facts : List LegalFact) : List LegalFact :=
  (facts.foldl insertFact []).map Prod.snd

/-- `build` (fact_graph.py lines 11–29): group by role in first-occurrence
order (a Python dict of buckets), merge within each role, concatenate. -/
def build (facts : List LegalFact) : List LegalFact :=
  (firstDedup (facts.map (fun f => f.role))).flatMap
    (fun r => merge_role_facts (facts.filter (fun f => f.role = r)))

end FactGraph

/- ===================================================================
   Section 7: app/services/rag_router.py
   =================================================================== -/

namespace RAGRouter

def MAX_TOTAL : Nat := 240
def MAX_PRIMARY : Nat := 130
def MAX_SECONDARY : Nat := 80
def MAX_RESERVE : Nat := 30

/-- `0.30`, in thousandths. -/
def CONF_STRONG : Int := 300

def ALLOWED : List String :=
  ["suspect_action", "fraud_action", "fraud_event",
   "investment_event", "investment_context",
   "scheme_marker", "entity_reference",
   "crypto_operation", "digital_transfer", "economic_action",
   "victim_loss", "money_transfer", "admin_action"]

def BLOCKED : List String :=
  ["generic_fact", "role_statement", "victim_statement", "address_only"]

def NORMALIZE : List (String × String) :=
  [("fraud_flag", "fraud_event"), ("invest_flag", "investment_event"),
   ("role_suspect", "suspect_action"), ("role_organizer", "suspect_action"),
   ("role_victim", "victim_loss"), ("role_witness", "role_statement"),
   ("entity", "entity_reference"), ("project", "entity_reference"),
   ("platform", "entity_reference"), ("organization", "entity_reference"),
   ("crypto", "crypto_operation"), ("crypto_flag", "crypto_operation"),
   ("account", "digital_transfer"), ("channel", "digital_transfer"),
   ("scheme", "scheme_marker"), ("scheme_flag", "scheme_marker"),
   ("economic_flag", "economic_action"), ("money", "money_transfer")]

def ROLE_PRIORITY : List (String × Int) :=
  [("suspect_action", 1), ("fraud_action", 2), ("fraud_event", 3),
   ("scheme_marker", 4), ("investment_event", 5), ("investment_context", 6),
   ("money_transfer", 7), ("crypto_operation", 7),
   ("economic_action", 8), ("digital_transfer", 8),
   ("victim_loss", 9), ("admin_action", 10), ("entity_reference", 11)]

def BOOST_TOKENS : List (String × Int) :=
  [("amount", 18), ("fraud_flag", 14), ("invest_flag", 12),
   ("scheme_flag", 12), ("crypto_flag", 12), ("crypto", 12),
   ("channel", 8), ("account", 8), ("economic_flag", 8),
   ("admin_flag", 6), ("entity", 10), ("project", 10),
   ("platform", 10), ("organization", 8), ("article_ref", 5), ("date", 3)]

/-- `_token_boost`. -/
def token_boost (f : LegalFact) : Int :=
  f.tokens.foldl (fun s t => s + ((BOOST_TOKENS.lookup t.type).getD 0)) 0

/-- Step 1 of `route_for_qualifier`: the in-place role normalization
`f.role = NORMALIZE[f.role]`, modelled functionally. -/
def normFact (f : LegalFact) : LegalFact :=
  match f.role with
  | none => f
  | some r =>
      match NORMALIZE.lookup r with
      | some r2 => { f with role := some r2 }
      | none => f

/-- The token-type safety net of step 2. -/
def SAFETY_NET : List String :=
  ["amount", "project", "platform", "crypto", "crypto_flag",
   "channel", "account", "scheme_flag", "fraud_flag", "invest_flag"]

/-- The keep/drop decision of step 2 of `route_for_qualifier` for one
(already normalized) fact. -/
def keepPred (target_article : Option String) (f : LegalFact) : Bool :=
  let role := f.role.getD ""
  if BLOCKED.contains role then false
  else if ¬ ALLOWED.contains role then
    f.tokens.any (fun t => SAFETY_NET.contains t.type)
    ∨ target_article = some "190" ∨ target_article = some "217"
  else true

/-- `getattr(f, "confidence", 0.0) or 0.0`, in thousandths. -/
def confOf (f : LegalFact) : Int := f.confidence.getD 0

def rolePrio (r : Option String) : Int :=
  match r with
  | none => 99
  | some s => (ROLE_PRIORITY.lookup s).getD 99

/-- `primary_score`: `(role priority, -token boost, -confidence * 10)`
(the last component in ten-thousandths; only its ordering is used). -/
def primary_score (f : LegalFact) : Int × Int × Int :=
  (rolePrio f.role, -(token_boost f), -(confOf f) * 10)

/-- Python tuple comparison on the primary scores. -/
def primaryLe (f g : LegalFact) : Bool :=
  let a := primary_score f
  let b := primary_score g
  decide (a.1 < b.1 ∨ (a.1 = b.1 ∧ (a.2.1 < b.2.1 ∨
    (a.2.1 = b.2.1 ∧ a.2.2 ≤ b.2.2))))

/-- `secondary_score` comparison: by `-token boost`. -/
def secondaryLe (f g : LegalFact) : Bool :=
  decide ((-(token_boost f)) ≤ (-(token_boost g)))

/-- `route_for_qualifier` (rag_router.py lines 135–224). -/
def route_for_qualifier (facts : List LegalFact)
    (target_article : Option String) : List LegalFact :=
  if facts = [] then []
  else
    let normed := facts.map normFact
    let filtered := normed.filter (keepPred target_article)
    if filtered = [] then []
    else
      let strong := filtered.filter (fun f => decide (CONF_STRONG ≤ confOf f))
      let weak := filtered.filter (fun f => decide (confOf f < CONF_STRONG))
      let primary := (insSort primaryLe strong).take MAX_PRIMARY
      let secondary := (insSort secondaryLe weak).take MAX_SECONDARY
      let reserve := (weak.drop secondary.length).take MAX_RESERVE
      (primary ++ secondary ++ reserve).take MAX_TOTAL

end RAGRouter

/- ===================================================================
   Section 8: app/services/facts/fact_filter.py
   =================================================================== -/

namespace FactFilter

def PROCESSUAL_KEYWORDS : List String :=
  ["разъяснены права", "ему разъяснены права", "ей разъяснены права",
   "данное постановление может быть обжаловано",
   "ознакомлен под роспись", "ознакомлена под роспись",
   "предупрежден об ответственности", "предупреждена об ответственности",
   "уведомлен об уголовной ответственности",
   "уведомлена об уголовной ответственности",
   "язык судопроизводства"]

def CRIME_TOKEN_TYPES : List String :=
  ["amount", "fraud_flag", "invest_flag", "scheme_flag",
   "economic_flag", "admin_flag", "crypto_flag", "crypto",
   "channel", "account", "person", "date", "action",
   "role_label", "article_ref"]

def IMPORTANT_ROLES : List String :=
  ["fraud_action", "fraud_event", "suspect_action", "money_transfer",
   "victim_loss", "investment_event", "investment_context",
   "crypto_operation", "economic_action", "admin_action",
   "scheme_marker", "digital_transfer"]

def MAX_FACTS : Nat := 100

/-- `(fact.text or fact.span_text or "")`. -/
def firstTruthy (a b : Option String) : String :=
  if truthyStr a then a.getD ""
  else if truthyStr b then b.getD ""
  else ""

/-- `_is_pure_processual` (fact_filter.py lines 95–111): the loop returns
at the first matching keyword and the decision does not depend on which
keyword matched, so it is equivalent to this `any`. -/
def is_pure_processual (f : LegalFact) : Bool :=
  let text := stripL (lowerL (firstTruthy f.text f.span_text).data)
  if PROCESSUAL_KEYWORDS.any (fun kw => containsSeq kw.data text) then
    ¬ f.tokens.any (fun t => CRIME_TOKEN_TYPES.contains t.type)
  else false

def roleScores : List (String × Int) :=
  [("fraud_action", 100), ("fraud_event", 95), ("suspect_action", 90),
   ("money_transfer", 85), ("victim_loss", 80), ("investment_event", 75),
   ("crypto_operation", 75), ("scheme_marker", 80), ("economic_action", 70),
   ("digital_transfer", 70), ("admin_action", 60),
   ("investment_context", 65)]

def tokenScores : List (String × Int) :=
  [("amount", 15), ("fraud_flag", 20), ("invest_flag", 15),
   ("crypto", 18), ("crypto_flag", 16), ("scheme_flag", 15),
   ("economic_flag", 12), ("channel", 10), ("account", 10),
   ("admin_flag", 8), ("date", 5), ("person", 3), ("action", 8),
   ("role_label", 5)]

/-- `_score_fact` (lines 116–167): role score, token-type scores over the
set of lowercased token types, confidence bonus. -/
def score_fact (f : LegalFact) : Int :=
  let role := lowerS (f.role.getD "")
  let token_types := firstDedup (f.tokens.map (fun t => lowerS t.type))
  ((roleScores.lookup role).getD 10)
  + token_types.foldl (fun s tp => s + ((tokenScores.lookup tp).getD 1)) 0
  + (if (500 : Int) < f.confidence.getD 0 then 10 else 0)

/-- `filter_for_qualifier` (fact_filter.py lines 63–90). -/
def filter_for_qualifier (facts : List LegalFact) : List LegalFact :=
  if facts = [] then []
  else
    let non_proc := facts.filter (fun f => ¬ is_pure_processual f)
    if non_proc = [] then facts.take MAX_FACTS
    else
      (insSort (fun a b => decide (score_fact b ≤ score_fact a))
        non_proc).take MAX_FACTS

end FactFilter

/- ===================================================================
   Section 9: claim-side definitions (stated from the spec's words, to be
   compared with the source embedding) and concrete example inputs
   =================================================================== -/

/-- Spec: the tokens of the fact set are the (truthy) `token_id`s of its
facts. -/
def specFactTokens (facts : List VFact) : List String :=
  facts.filterMap (fun f => if truthyStr f.token_id then f.token_id else none)

/-- Spec: "every id in used_tokens exists among the tokens of some fact
in the set". -/
def specUsedValid (facts : List VFact) (used : List String) : Bool :=
  used.all (fun t => (specFactTokens facts).contains t)

/-- Spec: "every sentence in the map has non-empty text and at least one
token reference that exists in the fact set". -/
def specSentenceOkB (facts : List VFact) (s : VSentence) : Bool :=
  stripS (s.text.getD "") ≠ "" &&
  s.tokens.any (fun t => (specFactTokens facts).contains t)

def specSentencesValid (facts : List VFact) (smap : List VSentence) : Bool :=
  smap.all (specSentenceOkB facts)

/-- Spec: "the union of token ids referenced across all sentences". -/
def specUnion (smap : List VSentence) : List String :=
  smap.flatMap (fun s => s.tokens)

/-- Spec: "used_tokens equals the union of token ids referenced across
all sentences" (as sets). -/
def specUsedEqUnion (used : List String) (smap : List VSentence) : Bool :=
  used.all (fun t => (specUnion smap).contains t) &&
  (specUnion smap).all (fun t => used.contains t)

/-- The three conditions of the claimed alignment-soundness property. -/
def specAlignmentOk (facts : List VFact) (used : List String)
    (smap : List VSentence) : Bool :=
  specUsedValid facts used && specSentencesValid facts smap &&
  specUsedEqUnion used smap

/-- A non-critical fact with full confidence and a single well-formed
source. -/
def c2fact : VFact :=
  { fact_id := some "f1"
    sources := [{ file_id := some "doc1", page := some 3 }]
    confidence := 1000
    critical := false
    token_id := none }

/-- Spec: the sentence "ends in `?`". -/
def specEndsInQ (s : String) : Bool := s.data.getLast? = some '?'

/-- Spec: the sentence "matches a question-marker prefix". -/
def specQuestionMarkerStart (s : String) : Bool :=
  FactTokenizer.strStarts "вопрос:" (lowerS s) ||
  FactTokenizer.strStarts "вопрос :" (lowerS s)

/-- Spec: "a pure interrogative line (ends in `?`, or matches a
question-marker prefix)". -/
def specPureInterrogative (s : String) : Bool :=
  specEndsInQ s || specQuestionMarkerStart s

/-- A sentence with a `?` in its middle (a question mark that is neither
final nor after a question-marker prefix) and no fact-marker keyword. -/
def questionMidSentence : String := "Он спросил? и ушел домой"

/-- A pure question that carries date content
(`12.03.2024` matches the tokenizer's `_date` pattern). -/
def questionWithDate : String := "Где вы были 12.03.2024?"

/-- An oracle under which the regex section of `_extract_tokens` finds
nothing (enough for the concrete examples: their tokens come from the
keyword families). -/
def emptyOracle : FactTokenizer.RegexOracle := fun _ => []

/-- A document whose `"text"` value is a truthy non-string. -/
def nonStringTextDoc : FactTokenizer.TDoc :=
  { file_id := some "f1", text := .other true }

/-- A document with readable text but no `"file_id"`. -/
def missingIdDoc : FactTokenizer.TDoc :=
  { file_id := none, text := .str "обман" }

/-- A document the tokenizer skips (text `None`). -/
def skipDoc : FactTokenizer.TDoc := { file_id := some "s", text := .noneV }

/-- A well-formed document that produces a fact. -/
def okDoc : FactTokenizer.TDoc := { file_id := some "f1", text := .str "обман" }

/-- A document `tokenize` skips with no facts: text `None`, a falsy
non-string, or a string that strips to empty. -/
def docSkippable (d : FactTokenizer.TDoc) : Bool :=
  match d.text with
  | .noneV => true
  | .other t => !t
  | .str s => stripS s = ""

/-- A document on which `tokenize` cannot raise: its text is a string (or
`None` / falsy), within the splitter's length bound, and its `file_id` is
present whenever its text is non-empty. -/
def docOk (d : FactTokenizer.TDoc) : Bool :=
  match d.text with
  | .noneV => true
  | .other t => !t
  | .str s =>
      if MAX_LEN < (stripS s).data.length then false
      else if stripS s = "" then true
      else d.file_id ≠ none

deriving instance DecidableEq for Except

/-- The fact `tokenize` produces from `okDoc` under `emptyOracle`:
the keyword `обман` yields one `fraud_flag` token, role `generic_fact`,
article hint 190 and confidence `0.45` (450 in thousandths). -/
def c8fact : LegalFact :=
  { fact_id := ""
    text := some "обман"
    span_text := some "обман"
    role := some "generic_fact"
    event_type := some "generic_fact"
    tokens := [{ type := "fraud_flag", value := "обман",
                 source := { file_id := "f1", page := 1 } }]
    source_refs := [{ file_id := "f1", page := 1 }]
    sentence_index := some 0
    context_before := some ""
    context_after := some ""
    article_hints := ["190"]
    confidence := some 450 }

/-- Spec (C7): the fact "matches a procedural-boilerplate phrase"
(one of the filter's keyword phrases occurs in its lowercased text). -/
def specMatchesProcPhrase (f : LegalFact) : Bool :=
  FactFilter.PROCESSUAL_KEYWORDS.any (fun kw =>
    containsSeq kw.data
      (stripL (lowerL (FactFilter.firstTruthy f.text f.span_text).data)))

def procSrc : SourceRef := { file_id := "p", page := 1 }

/-- A fact whose text matches a procedural phrase but which carries a
crime-type token (`amount`), so `_is_pure_processual` keeps it. -/
def c7fact1 : LegalFact :=
  { fact_id := "P1", text := some "ему разъяснены права"
    tokens := [{ type := "amount", value := "100 тенге",
                 source := procSrc }] }

/-- A pure-processual fact: a procedural phrase and no crime token. -/
def c7fact2 : LegalFact :=
  { fact_id := "P2", text := some "ему разъяснены права" }

/-- A fact with a role in the Router's blocked set that carries an
`amount` (safety-net) token. -/
def c3fact : LegalFact :=
  { fact_id := "B", role := some "generic_fact"
    tokens := [{ type := "amount", value := "100 тенге",
                 source := procSrc }] }

/-- A fact whose role is neither allowed nor blocked (nor normalized),
carrying a safety-net token. -/
def c3keep : LegalFact :=
  { fact_id := "K", role := some "unknown_role"
    tokens := [{ type := "amount", value := "100 тенге",
                 source := procSrc }]
    confidence := some 500 }

/-- C4: two facts identical up to their source page provenance — the
graph merges them, updating the survivor's `source_refs` in place. -/
def c4src1 : SourceRef := { file_id := "doc-a", page := 1 }

def c4src2 : SourceRef := { file_id := "doc-b", page := 2 }

def c4tok : FactToken :=
  { type := "amount", value := "100 тенге", source := c4src1 }

def c4factA : LegalFact :=
  { fact_id := "A", span_text := some "перевод 100 тенге"
    role := some "money_transfer", tokens := [c4tok]
    source_refs := [c4src1], sentence_index := some 0
    article_hints := ["190"] }

def c4factB : LegalFact :=
  { fact_id := "B", span_text := some "перевод 100 тенге"
    role := some "money_transfer"
    tokens := [{ c4tok with source := c4src2 }]
    source_refs := [c4src2], sentence_index := some 0
    article_hints := ["217"] }

/-- C4: a fact whose role `money` is in the router's NORMALIZE table. -/
def c4money : LegalFact :=
  { fact_id := "M", role := some "money", tokens := [c4tok]
    confidence := some 900 }

/-- The fact that survives the merge of `c4factA` and `c4factB`. -/
def c4merged : LegalFact :=
  { c4factA with
    source_refs := [c4src1, c4src2]
    article_hints := ["190", "217"] }

/-- The fields of a fact that `_merge_role_facts` leaves untouched on the
surviving fact (everything except `source_refs` and `article_hints`). -/
def sharesShape (g f : LegalFact) : Prop :=
  g.fact_id = f.fact_id ∧ g.tokens = f.tokens ∧ g.role = f.role ∧
  g.span_text = f.span_text ∧ g.sentence_index = f.sentence_index ∧
  g.text = f.text ∧ g.event_type = f.event_type ∧
  g.context_before = f.context_before ∧ g.context_after = f.context_after ∧
  g.confidence = f.confidence

instance (g f : LegalFact) : Decidable (sharesShape g f) := by
  unfold sharesShape
  infer_instance

-- ===== THEOREMS =====

/- ===================================================================
   Section 10: helper lemmas
   =================================================================== -/

theorem mem_firstDedupAux [DecidableEq α] (l : List α) (seen : List α)
    (a : α) : a ∈ firstDedupAux seen l ↔ a ∈ l ∧ a ∉ seen := by
  induction l generalizing seen with
  | nil => simp [firstDedupAux]
  | cons x xs ih =>
    by_cases hx : x ∈ seen
    · simp only [firstDedupAux, if_pos hx, ih, List.mem_cons]
      constructor
      · exact fun ⟨h1, h2⟩ => ⟨Or.inr h1, h2⟩
      · rintro ⟨h1 | h1, h2⟩
        · exact absurd (h1 ▸ hx) h2
        · exact ⟨h1, h2⟩
    · simp only [firstDedupAux, if_neg hx, List.mem_cons, ih]
      constructor
      · rintro (rfl | ⟨h1, h2⟩)
        · exact ⟨Or.inl rfl, hx⟩
        · exact ⟨Or.inr h1, fun hs => h2 (Or.inr hs)⟩
      · rintro ⟨h1 | h1, h2⟩
        · exact Or.inl h1
        · by_cases hax : a = x
          · exact Or.inl hax
          · exact Or.inr ⟨h1, fun hs => hs.elim hax h2⟩

theorem mem_firstDedup [DecidableEq α] (l : List α) (a : α) :
    a ∈ firstDedup l ↔ a ∈ l := by
  simp [firstDedup, mem_firstDedupAux]

theorem containsIffMem [BEq α] [LawfulBEq α] (l : List α) (a : α) :
    l.contains a = true ↔ a ∈ l := by
  simp [List.contains, List.elem_iff]

theorem length_insSorted (le : α → α → Bool) (a : α) (l : List α) :
    (insSorted le a l).length = l.length + 1 := by
  induction l with
  | nil => rfl
  | cons b bs ih =>
    by_cases h : le a b <;> simp [insSorted, h, ih]

theorem length_insSort (le : α → α → Bool) (l : List α) :
    (insSort le l).length = l.length := by
  induction l with
  | nil => rfl
  | cons a as ih => simp [insSort, length_insSorted, ih]

theorem mem_insSorted (le : α → α → Bool) (a b : α) (l : List α) :
    b ∈ insSorted le a l ↔ b = a ∨ b ∈ l := by
  induction l with
  | nil => simp [insSorted]
  | cons c cs ih =>
    by_cases h : le a c
    · simp [insSorted, h]
    · simp [insSorted, h, ih]
      tauto

theorem mem_insSort (le : α → α → Bool) (b : α) (l : List α) :
    b ∈ insSort le l ↔ b ∈ l := by
  induction l with
  | nil => simp [insSort]
  | cons a as ih => simp [insSort, mem_insSorted, ih]

theorem sortStrs_eq_nil (l : List String) : sortStrs l = [] ↔ l = [] := by
  rw [← List.length_eq_zero (l := sortStrs l), sortStrs,
      length_insSort, List.length_eq_zero]

theorem tokenAlignOk_iff (used A : List String) :
    (verify_token_alignment used A).ok = true ↔ ∀ t ∈ used, t ∈ A := by
  show decide _ = true ↔ _
  rw [decide_eq_true_eq, List.length_eq_zero, sortStrs_eq_nil,
      List.filter_eq_nil_iff]
  constructor
  · intro h t ht
    have h2 := h t ((mem_firstDedup _ _).mpr ht)
    simp only [Bool.not_eq_true, decide_eq_false_iff_not, Decidable.not_not]
      at h2
    exact (mem_firstDedup _ _).mp
      ((containsIffMem _ _).mp (by simpa using h2))
  · intro h t ht
    have h2 := h t ((mem_firstDedup _ _).mp ht)
    simp only [Bool.not_eq_true, decide_eq_false_iff_not, Decidable.not_not]
    simp [containsIffMem, mem_firstDedup, h2]

theorem sentenceEntry_fst_nil (A : List String) (i : Nat) (s : VSentence) :
    (sentenceEntry A i s).1 = [] ↔
      (stripS (s.text.getD "") ≠ "" ∧ s.tokens ≠ [] ∧
       ∀ t ∈ s.tokens, t ∈ A) := by
  unfold sentenceEntry
  by_cases h1 : stripS (s.text.getD "") = ""
  · simp [h1]
  · by_cases h2 : s.tokens = []
    · simp [h1, h2]
    · simp only [if_neg h1, if_neg h2, List.filterMap_eq_nil_iff]
      simp only [ne_eq, h1, not_false_eq_true, h2, true_and]
      constructor
      · intro h t ht
        have := h t ht
        by_cases hc : A.contains t
        · exact (containsIffMem _ _).mp hc
        · simp [hc] at this
          exact this
      · intro h t ht
        have hc : A.contains t = true := (containsIffMem _ _).mpr (h t ht)
        simp [hc]
        exact (containsIffMem _ _).mp hc

theorem sentenceEntry_snd_eq (A : List String) (i : Nat) (s : VSentence) :
    (sentenceEntry A i s).2 =
      if stripS (s.text.getD "") ≠ "" ∧ s.tokens ≠ [] then s.tokens
      else [] := by
  unfold sentenceEntry
  by_cases h1 : stripS (s.text.getD "") = ""
  · simp [h1]
  · by_cases h2 : s.tokens = []
    · simp [h1, h2]
    · simp [h1, h2]

theorem entries_fst_nil (A : List String) (smap : List VSentence) (n : Nat) :
    (((smap.enumFrom n).map
        (fun p => sentenceEntry A p.1 p.2)).flatMap Prod.fst = []) ↔
      ∀ s ∈ smap, stripS (s.text.getD "") ≠ "" ∧ s.tokens ≠ [] ∧
        ∀ t ∈ s.tokens, t ∈ A := by
  induction smap generalizing n with
  | nil => simp
  | cons s rest ih =>
    simp only [List.enumFrom_cons, List.map_cons, List.flatMap_cons,
      List.append_eq_nil, ih (n + 1), sentenceEntry_fst_nil,
      List.mem_cons]
    constructor
    · rintro ⟨h1, h2⟩ x (rfl | hx)
      · exact h1
      · exact h2 x hx
    · intro h
      exact ⟨h s (Or.inl rfl), fun x hx => h x (Or.inr hx)⟩

theorem entries_snd_mem (A : List String) (smap : List VSentence) (n : Nat)
    (t : String) :
    (t ∈ ((smap.enumFrom n).map
        (fun p => sentenceEntry A p.1 p.2)).flatMap Prod.snd) ↔
      ∃ s ∈ smap,
        (stripS (s.text.getD "") ≠ "" ∧ s.tokens ≠ []) ∧ t ∈ s.tokens := by
  induction smap generalizing n with
  | nil => simp
  | cons s rest ih =>
    simp only [List.enumFrom_cons, List.map_cons, List.flatMap_cons,
      List.mem_append, ih (n + 1), sentenceEntry_snd_eq, List.mem_cons]
    constructor
    · rintro (h | ⟨x, hx, hcond, hmem⟩)
      · by_cases hc : stripS (s.text.getD "") ≠ "" ∧ s.tokens ≠ []
        · exact ⟨s, Or.inl rfl, hc, by simpa [hc] using h⟩
        · simp [hc] at h
      · exact ⟨x, Or.inr hx, hcond, hmem⟩
    · rintro ⟨x, (rfl | hx), hcond, hmem⟩
      · exact Or.inl (by simp [hcond, hmem])
      · exact Or.inr ⟨x, hx, hcond, hmem⟩

theorem ifListNil {c : Prop} [Decidable c] (v : SViolation) :
    (if c then [v] else ([] : List SViolation)) = [] ↔ ¬c := by
  by_cases hc : c <;> simp [hc]

theorem sortFilterNotContains_nil (l m : List String) :
    sortStrs (l.filter (fun t => ¬ m.contains t)) = [] ↔
      ∀ t ∈ l, t ∈ m := by
  rw [sortStrs_eq_nil, List.filter_eq_nil_iff]
  constructor
  · intro h t ht
    have h2 := h t ht
    simp only [Bool.not_eq_true, decide_eq_false_iff_not,
      Decidable.not_not] at h2
    exact (containsIffMem _ _).mp (by simpa using h2)
  · intro h t ht
    simp only [Bool.not_eq_true, decide_eq_false_iff_not, Decidable.not_not]
    simp [containsIffMem, h t ht]

theorem sentenceAlignOk_iff (smap : List VSentence) (used A : List String)
    (h : smap ≠ []) :
    (verify_sentence_token_alignment smap used A).ok = true ↔
      ((∀ s ∈ smap, stripS (s.text.getD "") ≠ "" ∧ s.tokens ≠ [] ∧
          ∀ t ∈ s.tokens, t ∈ A) ∧
       (∀ t ∈ used, t ∈ specUnion smap) ∧
       (∀ t ∈ specUnion smap, t ∈ used)) := by
  simp only [verify_sentence_token_alignment, if_neg h]
  show decide _ = true ↔ _
  rw [decide_eq_true_eq, List.length_eq_zero, List.append_eq_nil,
      List.append_eq_nil, entries_fst_nil, ifListNil, ifListNil,
      not_ne_iff, not_ne_iff, sortFilterNotContains_nil,
      sortFilterNotContains_nil]
  constructor
  · rintro ⟨⟨hP, hQ⟩, hR⟩
    have hP2 : ∀ s ∈ smap, stripS (s.text.getD "") ≠ "" ∧ s.tokens ≠ [] ∧
        ∀ t ∈ s.tokens, t ∈ A := fun s hs =>
      ⟨(hP s hs).1, (hP s hs).2.1,
       fun t ht => (mem_firstDedup _ _).mp ((hP s hs).2.2 t ht)⟩
    refine ⟨hP2, ?_, ?_⟩
    · intro t ht
      have h2 := hQ t ((mem_firstDedup _ _).mpr ht)
      have h3 := (entries_snd_mem _ _ _ _).mp ((mem_firstDedup _ _).mp h2)
      rcases h3 with ⟨s, hs, _, hmem⟩
      exact List.mem_flatMap.mpr ⟨s, hs, hmem⟩
    · intro t ht
      rcases List.mem_flatMap.mp ht with ⟨s, hs, hmem⟩
      have h2 : t ∈ firstDedup
          (((smap.enumFrom 1).map
            (fun p => sentenceEntry (firstDedup A) p.1 p.2)).flatMap
              Prod.snd) := by
        refine (mem_firstDedup _ _).mpr ?_
        exact (entries_snd_mem _ _ _ _).mpr
          ⟨s, hs, ⟨(hP2 s hs).1, (hP2 s hs).2.1⟩, hmem⟩
      exact (mem_firstDedup _ _).mp (hR t h2)
  · rintro ⟨hP, hQ, hR⟩
    have hP2 : ∀ s ∈ smap, stripS (s.text.getD "") ≠ "" ∧ s.tokens ≠ [] ∧
        ∀ t ∈ s.tokens, t ∈ firstDedup A := fun s hs =>
      ⟨(hP s hs).1, (hP s hs).2.1,
       fun t ht => (mem_firstDedup _ _).mpr ((hP s hs).2.2 t ht)⟩
    refine ⟨⟨hP2, ?_⟩, ?_⟩
    · intro t ht
      have h2 := hQ t ((mem_firstDedup _ _).mp ht)
      rcases List.mem_flatMap.mp h2 with ⟨s, hs, hmem⟩
      refine (mem_firstDedup _ _).mpr ?_
      exact (entries_snd_mem _ _ _ _).mpr
        ⟨s, hs, ⟨(hP s hs).1, (hP s hs).2.1⟩, hmem⟩
    · intro t ht
      have h2 := (entries_snd_mem _ _ _ _).mp ((mem_firstDedup _ _).mp ht)
      rcases h2 with ⟨s, hs, _, hmem⟩
      refine (mem_firstDedup _ _).mpr ?_
      exact hR t (List.mem_flatMap.mpr ⟨s, hs, hmem⟩)

theorem sentence_empty_map_eq (used all : List String) :
    verify_sentence_token_alignment [] used all =
      { ok := false, sentence_count := 0, mapped_tokens := none,
        violations := [.no_sentence_map] } := rfl

theorem specFactTokens_eq_allTokenIds : @specFactTokens = @allTokenIds := rfl

theorem specAlignmentOk_iff (facts : List VFact) (used : List String)
    (smap : List VSentence) :
    specAlignmentOk facts used smap = true ↔
      ((∀ t ∈ used, t ∈ specFactTokens facts) ∧
       (∀ s ∈ smap, stripS (s.text.getD "") ≠ "" ∧
          ∃ t ∈ s.tokens, t ∈ specFactTokens facts) ∧
       (∀ t ∈ used, t ∈ specUnion smap) ∧
       (∀ t ∈ specUnion smap, t ∈ used)) := by
  unfold specAlignmentOk specUsedValid specSentencesValid specUsedEqUnion
    specSentenceOkB
  simp [List.all_eq_true, List.any_eq_true, containsIffMem, and_assoc]

/- ===================================================================
   Section 11: the claims
   =================================================================== -/

/-- C10: for every `used_tokens` and `all_token_ids`,
`verify_sentence_token_alignment` on an empty sentence map returns a
report with `ok = false`, `sentence_count = 0` and exactly one
`no_sentence_map` violation (and no `mapped_tokens` key): an absent map
is a verification failure, not a trivial success and not an exception. -/
theorem C10_empty_sentence_map_fails (used all_token_ids : List String) :
    verify_sentence_token_alignment [] used all_token_ids =
      { ok := false, sentence_count := 0, mapped_tokens := none,
        violations := [SViolation.no_sentence_map] } :=
  sentence_empty_map_eq used all_token_ids

/-- C2 (counterexample): a non-critical fact with full confidence and a
single well-formed source still fails the two-source requirement with
`only_one_source` under the default settings, contradicting the claim
that only critical facts need two sources. -/
theorem C2_counterexample :
    c2fact.critical = false ∧ c2fact.sources.length = 1 ∧
    (verify_facts_provenance defaultSettings [c2fact]).violations =
      [PViolation.only_one_source (some "f1")] := by decide

/-- C2 (amended): whenever `REQUIRE_TWO_SOURCES` is enabled (the
default), every fact — critical or not — with at least one source but
fewer than two distinct `(file_id, page)` source pairs fails with
`only_one_source`. -/
theorem C2_two_source_rule_applies_to_all (st : VSettings)
    (facts : List VFact) (f : VFact) (hf : f ∈ facts)
    (hreq : st.REQUIRE_TWO_SOURCES = true) (hne : f.sources ≠ [])
    (hlt : (uniqSources f.sources).length < 2) :
    PViolation.only_one_source f.fact_id ∈
      (verify_facts_provenance st facts).violations := by
  unfold verify_facts_provenance
  refine List.mem_flatMap.mpr ⟨f, hf, ?_⟩
  unfold factProvenanceViolations
  rw [if_neg hne, if_pos (show _ ∧ _ from ⟨by simp [hreq], hlt⟩)]
  simp

/-- C2 (witness): the amended theorem applied to the concrete
single-source non-critical fact. -/
theorem C2_witness :
    PViolation.only_one_source (some "f1") ∈
      (verify_facts_provenance defaultSettings [c2fact]).violations :=
  C2_two_source_rule_applies_to_all defaultSettings [c2fact] c2fact
    (List.mem_singleton.mpr rfl) rfl (by decide) (by decide)

/-- C1 (counterexample): on the empty payload the claim's three
conditions all hold vacuously, yet the verifier's alignment verdict is
`false` (the empty sentence map is itself a violation), so the claimed
equivalence fails. -/
theorem C1_counterexample :
    specAlignmentOk [] [] [] = true ∧
    alignment_verification [] [] [] = false := by decide

/-- C1 (amended): the alignment verdict is `true` iff the sentence map is
non-empty AND every used token exists among the facts' token ids AND
every sentence has non-empty text and at least one token existing in the
fact set AND the used tokens equal the union of sentence-referenced
tokens. -/
theorem C1_alignment_ok_iff (facts : List VFact) (used_tokens : List String)
    (sentence_map : List VSentence) :
    alignment_verification facts used_tokens sentence_map = true ↔
      (sentence_map ≠ [] ∧
       specAlignmentOk facts used_tokens sentence_map = true) := by
  unfold alignment_verification
  rw [Bool.and_eq_true]
  by_cases hmap : sentence_map = []
  · subst hmap
    simp [sentence_empty_map_eq]
  · rw [tokenAlignOk_iff, sentenceAlignOk_iff _ _ _ hmap,
        specAlignmentOk_iff]
    rw [specFactTokens_eq_allTokenIds]
    constructor
    · rintro ⟨hA, hP, hC1, hC2⟩
      refine ⟨hmap, hA, ?_, hC1, hC2⟩
      intro s hs
      obtain ⟨h1, h2, h3⟩ := hP s hs
      rcases List.exists_mem_of_ne_nil _ h2 with ⟨t, ht⟩
      exact ⟨h1, t, ht, h3 t ht⟩
    · rintro ⟨-, hA, hB, hC1, hC2⟩
      refine ⟨hA, ?_, hC1, hC2⟩
      intro s hs
      obtain ⟨h1, t0, ht0, -⟩ := hB s hs
      refine ⟨h1, List.ne_nil_of_mem ht0, ?_⟩
      intro t ht
      exact hA t (hC2 t (List.mem_flatMap.mpr ⟨s, hs, ht⟩))

/-- C6 (counterexample): the claim fails in both directions it
constrains: `questionMidSentence` is dropped although it is not a pure
interrogative line in the claim's sense (it neither ends in `?` nor
starts with a question marker), and `questionWithDate` is dropped
although it carries date content (the tokenizer's own date pattern
matches it). -/
theorem C6_counterexample :
    (FactTokenizer.is_pure_question questionMidSentence = true ∧
     specPureInterrogative questionMidSentence = false) ∧
    (FactTokenizer.is_pure_question questionWithDate = true ∧
     reSearch FactTokenizer.dateRe questionWithDate.data = true) := by
  decide

open FactTokenizer in
/-- C6 (amended): a sentence is dropped by the question filter iff it
contains `?` anywhere, or the substring `вопрос:` or `вопрос :` in its
lowercased text, AND contains none of the fact-marker keywords (currency
words, transfer verbs, investment stems, pyramid phrases, platform,
project).  A question carrying one of those markers is never dropped;
date or entity content alone does not protect a question. -/
theorem C6_question_drop_iff (s : String) :
    FactTokenizer.is_pure_question s =
      ((strIn "вопрос:" (lowerS s) || strIn "вопрос :" (lowerS s) ||
        strIn "?" s) &&
       ! QUESTION_FACT_MARKERS.any (fun kw => strIn kw (lowerS s))) := by
  unfold FactTokenizer.is_pure_question
  cases hA : strIn "вопрос:" (lowerS s) <;>
    cases hB : strIn "вопрос :" (lowerS s) <;>
      cases hC : strIn "?" s <;>
        cases hM : QUESTION_FACT_MARKERS.any (fun kw => strIn kw (lowerS s)) <;>
          simp [hA, hB, hC, hM]

theorem collectE_ok (l : List (Except PyErr (List LegalFact)))
    (h : ∀ e ∈ l, ∃ x, e = .ok x) :
    ∃ y, FactTokenizer.collectE l = .ok y := by
  induction l with
  | nil => exact ⟨[], rfl⟩
  | cons e rest ih =>
    obtain ⟨x, hx⟩ := h e (List.mem_cons_self e rest)
    obtain ⟨y, hy⟩ := ih (fun e' he' => h e' (List.mem_cons_of_mem _ he'))
    exact ⟨x ++ y, by simp [FactTokenizer.collectE, hx, hy, Except.bind,
      Except.map]⟩

theorem processSentence_some_ok (oracle : FactTokenizer.RegexOracle)
    (fid : String) (page : Int) (idx : Nat) (w : String × String × String) :
    ∃ l, FactTokenizer.processSentence oracle (some fid) page idx w =
      .ok l := by
  simp only [FactTokenizer.processSentence]
  repeat' first
    | exact ⟨_, rfl⟩
    | split

theorem processDoc_ok (oracle : FactTokenizer.RegexOracle)
    (d : FactTokenizer.TDoc) (h : docOk d = true) :
    ∃ l, FactTokenizer.processDoc oracle d = .ok l := by
  unfold docOk at h
  rcases hdt : d.text with s | _ | t
  · rw [hdt] at h
    replace h : (if MAX_LEN < (stripS s).data.length then false
        else if stripS s = "" then true
        else decide (d.file_id ≠ none)) = true := h
    by_cases h1 : stripS s = ""
    · exact ⟨[], by simp [FactTokenizer.processDoc, hdt, h1]⟩
    · by_cases h0 : MAX_LEN < (stripS s).data.length
      · rw [if_pos h0] at h
        exact absurd h (by simp)
      · rw [if_neg h0, if_neg h1] at h
        have hfid : d.file_id ≠ none := by simpa using h
        simp only [FactTokenizer.processDoc, hdt, if_neg h1,
          split_into_sentences, if_neg h0]
        apply collectE_ok
        intro e he
        rcases List.mem_map.mp he with ⟨p, hp, rfl⟩
        rcases Option.ne_none_iff_exists'.mp hfid with ⟨fid, hfid'⟩
        rw [hfid']
        exact processSentence_some_ok oracle fid d.page p.1 p.2
  · exact ⟨[], by simp [FactTokenizer.processDoc, hdt]⟩
  · rw [hdt] at h
    replace h : (!t) = true := h
    have ht : t = false := by simpa using h
    subst ht
    exact ⟨[], by simp [FactTokenizer.processDoc, hdt]⟩

/-- C5 (counterexample): a document whose text is a truthy non-string
makes `tokenize` raise `AttributeError` (from `.strip()`), and a document
with readable text but no file id makes it raise a pydantic validation
error (from `SourceRef(file_id=None, …)`); in both cases the whole batch
is aborted rather than the document being skipped. -/
theorem C5_counterexample :
    FactTokenizer.tokenize emptyOracle [nonStringTextDoc] =
      .error .attributeError ∧
    FactTokenizer.tokenize emptyOracle [missingIdDoc] =
      .error .validationError := by decide

/-- C5 (amended): a document whose text is `None`, falsy, or strips to
the empty string is skipped with no facts produced while the remaining
documents are still processed, and on a batch of such documents and
well-formed documents (string text within the length bound, file id
present when the text is non-empty) `tokenize` never raises; but a truthy
non-string text or a missing document id raises and aborts the whole
batch (see the counterexample). -/
theorem C5_skip_and_no_raise (oracle : FactTokenizer.RegexOracle)
    (docs : List FactTokenizer.TDoc) (h : ∀ d ∈ docs, docOk d = true) :
    (∃ facts, FactTokenizer.tokenize oracle docs = .ok facts) ∧
    ∀ d ∈ docs, docSkippable d = true →
      FactTokenizer.processDoc oracle d = .ok [] := by
  constructor
  · unfold FactTokenizer.tokenize
    apply collectE_ok
    intro e he
    rcases List.mem_map.mp he with ⟨d, hd, rfl⟩
    exact processDoc_ok oracle d (h d hd)
  · intro d hd hskip
    unfold docSkippable at hskip
    rcases hdt : d.text with s | _ | t
    · rw [hdt] at hskip
      simp only [FactTokenizer.processDoc, hdt]
      rw [if_pos (by simpa using hskip)]
    · simp [FactTokenizer.processDoc, hdt]
    · rw [hdt] at hskip
      have ht : t = false := by simpa using hskip
      subst ht
      simp [FactTokenizer.processDoc, hdt]

/-- C5 (witness): the amended theorem applied to a concrete batch of a
skipped document followed by a fact-producing one. -/
theorem C5_witness :
    (∃ facts, FactTokenizer.tokenize emptyOracle [skipDoc, okDoc] =
      .ok facts) ∧
    ∀ d ∈ [skipDoc, okDoc], docSkippable d = true →
      FactTokenizer.processDoc emptyOracle d = .ok [] :=
  C5_skip_and_no_raise emptyOracle [skipDoc, okDoc] (by decide)

theorem conf_model_le (fact : LegalFact) :
    FactTokenizer.conf_model fact ≤ 1000 := by
  simp only [FactTokenizer.conf_model]
  split
  · exact le_refl _
  · split <;> split <;> split <;> norm_num

theorem processSentence_inv (oracle : FactTokenizer.RegexOracle)
    (fid : Option String) (page : Int) (idx : Nat)
    (w : String × String × String) (l : List LegalFact)
    (h : FactTokenizer.processSentence oracle fid page idx w = .ok l) :
    ∀ f ∈ l, f.tokens ≠ [] ∧
      ∃ c, f.confidence = some c ∧ 0 < c ∧ c ≤ 1000 := by
  simp only [FactTokenizer.processSentence] at h
  split at h
  · injection h with h2; subst h2; intro f hf; simp at hf
  · split at h
    · injection h with h2; subst h2; intro f hf; simp at hf
    · split at h
      · exact absurd h (by simp)
      · split at h
        · injection h with h2; subst h2; intro f hf; simp at hf
        · split at h
          · injection h with h2; subst h2; intro f hf; simp at hf
          · split at h
            · injection h with h2; subst h2; intro f hf; simp at hf
            · injection h with h2
              subst h2
              intro f hf
              rcases List.mem_singleton.mp hf with rfl
              rename_i hfid htok hvic hconf
              refine ⟨htok, FactTokenizer.conf_model _, rfl, ?_, ?_⟩
              · omega
              · exact conf_model_le _

theorem collectE_mem (l : List (Except PyErr (List LegalFact)))
    (ys : List LegalFact) (h : FactTokenizer.collectE l = .ok ys) :
    ∀ f ∈ ys, ∃ e ∈ l, ∃ xs, e = .ok xs ∧ f ∈ xs := by
  induction l generalizing ys with
  | nil =>
    injection h with h2
    subst h2
    intro f hf
    simp at hf
  | cons e rest ih =>
    simp only [FactTokenizer.collectE] at h
    cases e with
    | error err => exact absurd h (by simp [Except.bind])
    | ok x =>
      simp only [Except.bind] at h
      cases hrest : FactTokenizer.collectE rest with
      | error err => rw [hrest] at h; exact absurd h (by simp [Except.map])
      | ok y =>
        rw [hrest] at h
        simp only [Except.map] at h
        injection h with h2
        subst h2
        intro f hf
        rcases List.mem_append.mp hf with hx | hy
        · exact ⟨.ok x, List.mem_cons_self _ _, x, rfl, hx⟩
        · obtain ⟨e', he', xs, hxs, hfxs⟩ := ih y hrest f hy
          exact ⟨e', List.mem_cons_of_mem _ he', xs, hxs, hfxs⟩

theorem processDoc_inv (oracle : FactTokenizer.RegexOracle)
    (d : FactTokenizer.TDoc) (l : List LegalFact)
    (h : FactTokenizer.processDoc oracle d = .ok l) :
    ∀ f ∈ l, f.tokens ≠ [] ∧
      ∃ c, f.confidence = some c ∧ 0 < c ∧ c ≤ 1000 := by
  simp only [FactTokenizer.processDoc] at h
  split at h
  · injection h with h2; subst h2; intro f hf; simp at hf
  · exact absurd h (by simp)
  · injection h with h2; subst h2; intro f hf; simp at hf
  · rename_i s heq
    split at h
    · injection h with h2; subst h2; intro f hf; simp at hf
    · cases hsp : split_into_sentences (stripS s) with
      | error err => rw [hsp] at h; exact absurd h (by simp [Except.bind])
      | ok sentences =>
        rw [hsp] at h
        simp only [Except.bind] at h
        intro f hf
        obtain ⟨e, he, xs, hxs, hfxs⟩ := collectE_mem _ _ h f hf
        rcases List.mem_map.mp he with ⟨p, hp, rfl⟩
        exact processSentence_inv oracle d.file_id d.page p.1 p.2 xs
          hxs f hfxs

/-- C8: every fact produced by `tokenize` (for any regex oracle and any
batch) has at least one token and a confidence `c` with
`0.0 ≤ c ≤ 1.0` (`0 ≤ c ≤ 1000` in thousandths; the code in fact
guarantees `0 < c`). -/
theorem C8_token_and_confidence_bounds (oracle : FactTokenizer.RegexOracle)
    (docs : List FactTokenizer.TDoc) (fs : List LegalFact) (f : LegalFact)
    (hok : FactTokenizer.tokenize oracle docs = .ok fs) (hf : f ∈ fs) :
    f.tokens ≠ [] ∧ ∃ c, f.confidence = some c ∧ 0 ≤ c ∧ c ≤ 1000 := by
  simp only [FactTokenizer.tokenize] at hok
  obtain ⟨e, he, xs, hxs, hfxs⟩ := collectE_mem _ _ hok f hf
  rcases List.mem_map.mp he with ⟨d, hd, rfl⟩
  obtain ⟨htok, c, hc, hpos, hle⟩ :=
    processDoc_inv oracle d xs hxs f hfxs
  exact ⟨htok, c, hc, le_of_lt hpos, hle⟩

/-- C8 (witness): the theorem applied to the concrete batch `[okDoc]`,
whose tokenization is the single fact `c8fact`. -/
theorem C8_witness :
    FactTokenizer.tokenize emptyOracle [okDoc] = .ok [c8fact] ∧
    (c8fact.tokens ≠ [] ∧
     ∃ c, c8fact.confidence = some c ∧ 0 ≤ c ∧ c ≤ 1000) :=
  ⟨by decide,
   C8_token_and_confidence_bounds emptyOracle [okDoc] [c8fact] c8fact
     (by decide) (by decide)⟩

/-- C7 (counterexample): both facts match a procedural-boilerplate
phrase, yet the filter does not return the original unfiltered (capped)
list: `c7fact1` carries an `amount` token, so it is not pure-processual
and the fallback branch is not taken — the pure-processual `c7fact2` is
filtered out. -/
theorem C7_counterexample :
    ([c7fact1, c7fact2].all specMatchesProcPhrase = true) ∧
    FactFilter.filter_for_qualifier [c7fact1, c7fact2] ≠
      ([c7fact1, c7fact2]).take FactFilter.MAX_FACTS := by decide

/-- C7 (amended): for every non-empty input, `filter_for_qualifier`
returns a non-empty list of at most `MAX_FACTS` facts; and in the
pathological case where every input fact is pure-processual (matches a
boilerplate phrase AND carries no crime-type token) it returns the
original unfiltered list capped at the maximum rather than an empty
set. -/
theorem C7_filter_nonempty (facts : List LegalFact) (h : facts ≠ []) :
    FactFilter.filter_for_qualifier facts ≠ [] ∧
    (FactFilter.filter_for_qualifier facts).length ≤ FactFilter.MAX_FACTS ∧
    ((∀ f ∈ facts, FactFilter.is_pure_processual f = true) →
      FactFilter.filter_for_qualifier facts =
        facts.take FactFilter.MAX_FACTS) := by
  unfold FactFilter.filter_for_qualifier
  rw [if_neg h]
  by_cases hnp : facts.filter
      (fun f => ¬ FactFilter.is_pure_processual f) = []
  · rw [if_pos hnp]
    refine ⟨?_, ?_, fun _ => rfl⟩
    · rw [Ne, List.take_eq_nil_iff]
      rintro (h100 | rfl)
      · simp [FactFilter.MAX_FACTS] at h100
      · exact h rfl
    · simp [List.length_take]
  · rw [if_neg hnp]
    refine ⟨?_, ?_, ?_⟩
    · rw [Ne, List.take_eq_nil_iff]
      rintro (h100 | hsort)
      · simp [FactFilter.MAX_FACTS] at h100
      · apply hnp
        rw [← List.length_eq_zero, ← length_insSort
          (fun a b => decide (FactFilter.score_fact b ≤ FactFilter.score_fact a)),
          hsort]
        rfl
    · simp [List.length_take]
    · intro hall
      exact absurd (List.filter_eq_nil_iff.mpr
        (fun f hf => by simp [hall f hf])) hnp

/-- C7 (witness): the amended theorem applied to a concrete singleton
batch of one pure-processual fact (the fallback branch). -/
theorem C7_witness :
    FactFilter.filter_for_qualifier [c7fact2] ≠ [] ∧
    (FactFilter.filter_for_qualifier [c7fact2]).length ≤
      FactFilter.MAX_FACTS ∧
    ((∀ f ∈ [c7fact2], FactFilter.is_pure_processual f = true) →
      FactFilter.filter_for_qualifier [c7fact2] =
        ([c7fact2]).take FactFilter.MAX_FACTS) :=
  C7_filter_nonempty [c7fact2] (by decide)

theorem insSorted_perm (le : α → α → Bool) (a : α) (l : List α) :
    (insSorted le a l).Perm (a :: l) := by
  induction l with
  | nil => exact List.Perm.refl _
  | cons b bs ih =>
    by_cases h : le a b
    · simp [insSorted, h]
    · simp only [insSorted, h, if_false, Bool.false_eq_true]
      exact ((ih.cons b).trans (List.Perm.swap a b bs))

theorem insSort_perm (le : α → α → Bool) (l : List α) :
    (insSort le l).Perm l := by
  induction l with
  | nil => exact List.Perm.refl _
  | cons a as ih =>
    exact (insSorted_perm le a (insSort le as)).trans (ih.cons a)

theorem normFact_tokens (f : LegalFact) :
    (RAGRouter.normFact f).tokens = f.tokens := by
  cases hr : f.role with
  | none => simp [RAGRouter.normFact, hr]
  | some r =>
    cases hl : RAGRouter.NORMALIZE.lookup r <;>
      simp [RAGRouter.normFact, hr, hl]

/-- C3 (counterexample): a fact with blocked role `generic_fact` and an
`amount` safety-net token is dropped entirely by the router — the output
is empty, so the fact is not kept. -/
theorem C3_counterexample :
    RAGRouter.BLOCKED.contains (c3fact.role.getD "") = true ∧
    c3fact.tokens.any
      (fun t => RAGRouter.SAFETY_NET.contains t.type) = true ∧
    RAGRouter.route_for_qualifier [c3fact] none = [] := by decide

/-- C3 (amended): the safety net applies to facts whose (normalized) role
is neither in `ALLOWED` nor in `BLOCKED`: such a fact carrying at least
one safety-net token type is kept by `route_for_qualifier` (stated for
batches of at most 80 facts, where no size cap can truncate); a fact
whose role is in the blocked set is dropped unconditionally (see the
counterexample). -/
theorem C3_safety_net_keeps (facts : List LegalFact)
    (target : Option String) (f : LegalFact) (hf : f ∈ facts)
    (hall : RAGRouter.ALLOWED.contains
      ((RAGRouter.normFact f).role.getD "") = false)
    (hblk : RAGRouter.BLOCKED.contains
      ((RAGRouter.normFact f).role.getD "") = false)
    (hnet : f.tokens.any
      (fun t => RAGRouter.SAFETY_NET.contains t.type) = true)
    (hlen : facts.length ≤ 80) :
    RAGRouter.normFact f ∈ RAGRouter.route_for_qualifier facts target := by
  have hne : facts ≠ [] := List.ne_nil_of_mem hf
  have hblk2 : (RAGRouter.normFact f).role.getD "" ∉ RAGRouter.BLOCKED :=
    fun hm => by
      rw [(containsIffMem _ _).mpr hm] at hblk
      exact absurd hblk (by simp)
  have hall2 : (RAGRouter.normFact f).role.getD "" ∉ RAGRouter.ALLOWED :=
    fun hm => by
      rw [(containsIffMem _ _).mpr hm] at hall
      exact absurd hall (by simp)
  have hkeep : RAGRouter.keepPred target (RAGRouter.normFact f) = true := by
    simp only [RAGRouter.keepPred]
    rw [if_neg (by simpa using hblk2)]
    rw [if_pos (by simpa using hall2)]
    simp only [normFact_tokens, decide_eq_true_eq]
    exact Or.inl hnet
  simp only [RAGRouter.route_for_qualifier, if_neg hne]
  set filtered := (facts.map RAGRouter.normFact).filter
    (RAGRouter.keepPred target) with hfil
  have hgfil : RAGRouter.normFact f ∈ filtered :=
    List.mem_filter.mpr ⟨List.mem_map_of_mem _ hf, hkeep⟩
  rw [if_neg (List.ne_nil_of_mem hgfil)]
  have hlenf : filtered.length ≤ 80 := by
    calc filtered.length ≤ (facts.map RAGRouter.normFact).length :=
          List.length_filter_le _ _
      _ = facts.length := List.length_map _ _
      _ ≤ 80 := hlen
  set strong := filtered.filter
    (fun g => decide (RAGRouter.CONF_STRONG ≤ RAGRouter.confOf g)) with hs
  set weak := filtered.filter
    (fun g => decide (RAGRouter.confOf g < RAGRouter.CONF_STRONG)) with hw
  have hsl : strong.length ≤ 80 :=
    le_trans (List.length_filter_le _ _) hlenf
  have hwl : weak.length ≤ 80 :=
    le_trans (List.length_filter_le _ _) hlenf
  have hprim : (insSort RAGRouter.primaryLe strong).take
      RAGRouter.MAX_PRIMARY = insSort RAGRouter.primaryLe strong :=
    List.take_of_length_le (by
      rw [length_insSort]
      exact le_trans hsl (by norm_num [RAGRouter.MAX_PRIMARY]))
  have hsec : (insSort RAGRouter.secondaryLe weak).take
      RAGRouter.MAX_SECONDARY = insSort RAGRouter.secondaryLe weak :=
    List.take_of_length_le (by
      rw [length_insSort]
      exact le_trans hwl (by norm_num [RAGRouter.MAX_SECONDARY]))
  rw [hprim, hsec, length_insSort, List.drop_length]
  have htot : (insSort RAGRouter.primaryLe strong ++
      insSort RAGRouter.secondaryLe weak ++
        ([] : List LegalFact).take RAGRouter.MAX_RESERVE).length ≤
      RAGRouter.MAX_TOTAL := by
    simp [List.length_append, length_insSort, RAGRouter.MAX_TOTAL]
    omega
  rw [List.take_of_length_le htot]
  have hcase : RAGRouter.normFact f ∈ strong ∨
      RAGRouter.normFact f ∈ weak := by
    by_cases hc : RAGRouter.CONF_STRONG ≤ RAGRouter.confOf
        (RAGRouter.normFact f)
    · exact Or.inl (List.mem_filter.mpr ⟨hgfil, by
        simp only [decide_eq_true_eq]; exact hc⟩)
    · exact Or.inr (List.mem_filter.mpr ⟨hgfil, by
        simp only [decide_eq_true_eq]; exact lt_of_not_ge hc⟩)
  rcases hcase with hg | hg
  · exact List.mem_append_left _
      (List.mem_append_left _ ((mem_insSort _ _ _).mpr hg))
  · exact List.mem_append_left _
      (List.mem_append_right _ ((mem_insSort _ _ _).mpr hg))

/-- C3 (witness): the amended theorem applied to the singleton batch of
a fact with unknown role `unknown_role` and an `amount` token. -/
theorem C3_witness :
    RAGRouter.normFact c3keep ∈
      RAGRouter.route_for_qualifier [c3keep] none :=
  C3_safety_net_keeps [c3keep] none c3keep (by decide) (by decide)
    (by decide) (by decide) (by decide)

theorem mergeTokens_eq_self (e f : List FactToken)
    (h : ∀ t ∈ f, (t.type, t.value) ∈ e.map (fun u => (u.type, u.value))) :
    FactGraph.mergeTokens e f = e := by
  unfold FactGraph.mergeTokens
  induction f generalizing e with
  | nil => rfl
  | cons t ts ih =>
    rw [List.foldl_cons]
    have hc : (e.map (fun u => (u.type, u.value))).contains
        (t.type, t.value) = true :=
      (containsIffMem _ _).mpr (h t (List.mem_cons_self _ _))
    rw [if_pos hc]
    exact ih e (fun u hu => h u (List.mem_cons_of_mem _ hu))

theorem tokensKey_mem (g x : LegalFact)
    (hk : FactGraph.tokensKey x = FactGraph.tokensKey g) :
    ∀ t ∈ x.tokens,
      (t.type, t.value) ∈ g.tokens.map (fun u => (u.type, u.value)) := by
  intro t ht
  have hx : (t.type, t.value) ∈ FactGraph.tokensKey x :=
    (mem_insSort _ _ _).mpr (List.mem_map_of_mem _ ht)
  rw [hk] at hx
  exact (mem_insSort _ _ _).mp hx

theorem mergeInto_shape (g x : LegalFact)
    (hk : FactGraph.mergeKey x = FactGraph.mergeKey g) :
    sharesShape (FactGraph.mergeInto g x) g ∧
    FactGraph.mergeKey (FactGraph.mergeInto g x) = FactGraph.mergeKey g := by
  have htk : FactGraph.tokensKey x = FactGraph.tokensKey g :=
    congrArg (fun p => p.1) hk
  have htoks : FactGraph.mergeTokens g.tokens x.tokens = g.tokens :=
    mergeTokens_eq_self _ _ (tokensKey_mem g x htk)
  constructor
  · exact ⟨rfl, htoks, rfl, rfl, rfl, rfl, rfl, rfl, rfl, rfl⟩
  · unfold FactGraph.mergeKey FactGraph.tokensKey
    simp [FactGraph.mergeInto, htoks]

theorem sharesShape_refl (f : LegalFact) : sharesShape f f :=
  ⟨rfl, rfl, rfl, rfl, rfl, rfl, rfl, rfl, rfl, rfl⟩

theorem sharesShape_trans {a b c : LegalFact} (h1 : sharesShape a b)
    (h2 : sharesShape b c) : sharesShape a c := by
  obtain ⟨x1, x2, x3, x4, x5, x6, x7, x8, x9, x10⟩ := h1
  obtain ⟨y1, y2, y3, y4, y5, y6, y7, y8, y9, y10⟩ := h2
  exact ⟨x1.trans y1, x2.trans y2, x3.trans y3, x4.trans y4, x5.trans y5,
    x6.trans y6, x7.trans y7, x8.trans y8, x9.trans y9, x10.trans y10⟩

/-- The `unique_map` fold invariant: every stored entry's key is the key
of its (possibly updated) fact, and every stored fact shares its shape
with some input fact. -/
theorem foldl_insertFact_inv (full : List LegalFact) :
    ∀ (facts : List LegalFact) (acc : List (FactGraph.MergeKey × LegalFact)),
      (∀ x ∈ facts, x ∈ full) →
      (∀ p ∈ acc, p.1 = FactGraph.mergeKey p.2 ∧
        ∃ f ∈ full, sharesShape p.2 f) →
      ∀ p ∈ facts.foldl FactGraph.insertFact acc,
        p.1 = FactGraph.mergeKey p.2 ∧ ∃ f ∈ full, sharesShape p.2 f := by
  intro facts
  induction facts with
  | nil =>
    intro acc _ hacc p hp
    exact hacc p hp
  | cons x xs ih =>
    intro acc hsub hacc p hp
    rw [List.foldl_cons] at hp
    refine ih (FactGraph.insertFact acc x)
      (fun y hy => hsub y (List.mem_cons_of_mem _ hy)) ?_ p hp
    intro q hq
    simp only [FactGraph.insertFact] at hq
    split at hq
    · rcases List.mem_map.mp hq with ⟨q0, hq0, rfl⟩
      obtain ⟨hkey0, f0, hf0, hshape0⟩ := hacc q0 hq0
      by_cases hmatch : q0.1 = FactGraph.mergeKey x
      · rw [if_pos hmatch]
        have hkx : FactGraph.mergeKey x = FactGraph.mergeKey q0.2 := by
          rw [← hmatch, hkey0]
        obtain ⟨hshape, hkeep⟩ := mergeInto_shape q0.2 x hkx
        exact ⟨by rw [hkeep, hkey0], f0, hf0,
          sharesShape_trans hshape hshape0⟩
      · rw [if_neg hmatch]
        exact ⟨hkey0, f0, hf0, hshape0⟩
    · rcases List.mem_append.mp hq with hq1 | hq2
      · exact hacc q hq1
      · rcases List.mem_singleton.mp hq2 with rfl
        exact ⟨rfl, x, hsub x (List.mem_cons_self _ _),
          sharesShape_refl x⟩

/-- C4 (counterexample): `FactGraph.build` merges two facts that differ
only in provenance and returns the surviving fact with `source_refs` and
`article_hints` changed from every input's (the in-place update of
`_merge_role_facts`), and `route_for_qualifier` returns the input fact
with its `role` field rewritten (`money` → `money_transfer`, the in-place
normalization of step 1) — so neither stage leaves those input-fact
fields unchanged. -/
theorem C4_counterexample :
    (FactGraph.build [c4factA, c4factB]).map (fun g => g.source_refs) =
      [[c4src1, c4src2]] ∧
    c4factA.source_refs = [c4src1] ∧ c4factB.source_refs = [c4src2] ∧
    (FactGraph.build [c4factA, c4factB]).map (fun g => g.article_hints) =
      [["190", "217"]] ∧
    c4factA.article_hints = ["190"] ∧ c4factB.article_hints = ["217"] ∧
    (RAGRouter.route_for_qualifier [c4money] none).map (fun g => g.role) =
      [some "money_transfer"] ∧
    c4money.role = some "money" := by decide

/-- C4 (amended): every fact the router outputs is the role-normalization
of some input fact (only the `role` field can change, and only through
the `NORMALIZE` table), and every fact `FactGraph.build` outputs shares
with some input fact all fields except `source_refs` and `article_hints`
(which a merge updates in place on the surviving fact); in particular
tokens are never changed by either stage. -/
theorem C4_stage_effects (facts : List LegalFact) (target : Option String) :
    (∀ g ∈ RAGRouter.route_for_qualifier facts target,
      ∃ f ∈ facts, g = RAGRouter.normFact f) ∧
    (∀ g ∈ FactGraph.build facts, ∃ f ∈ facts, sharesShape g f) := by
  constructor
  · intro g hg
    simp only [RAGRouter.route_for_qualifier] at hg
    split at hg
    · simp at hg
    · split at hg
      · simp at hg
      · have h1 := List.take_subset _ _ hg
        have h2 : g ∈ (facts.map RAGRouter.normFact).filter
            (RAGRouter.keepPred target) := by
          rcases List.mem_append.mp h1 with h3 | h3
          · rcases List.mem_append.mp h3 with h4 | h4
            · exact List.mem_of_mem_filter
                ((mem_insSort _ _ _).mp (List.take_subset _ _ h4))
            · exact List.mem_of_mem_filter
                ((mem_insSort _ _ _).mp (List.take_subset _ _ h4))
          · exact List.mem_of_mem_filter
              (List.drop_subset _ _ (List.take_subset _ _ h3))
        rcases List.mem_map.mp (List.mem_of_mem_filter h2) with ⟨f, hf, rfl⟩
        exact ⟨f, hf, rfl⟩
  · intro g hg
    simp only [FactGraph.build] at hg
    rcases List.mem_flatMap.mp hg with ⟨r, hr, hgr⟩
    simp only [FactGraph.merge_role_facts] at hgr
    rcases List.mem_map.mp hgr with ⟨p, hp, rfl⟩
    exact (foldl_insertFact_inv facts (facts.filter (fun f => f.role = r))
      [] (fun y hy => List.mem_of_mem_filter hy)
      (by intro q hq; simp at hq) p hp).2

/-- C4 (witness): the amended theorem applied to the concrete router
batch `[c4money]` and graph batch `[c4factA, c4factB]` at their concrete
output facts. -/
theorem C4_witness :
    (∃ f ∈ [c4money],
      RAGRouter.normFact c4money = RAGRouter.normFact f) ∧
    (∃ f ∈ [c4factA, c4factB], sharesShape c4merged f) :=
  ⟨(C4_stage_effects [c4money] none).1 (RAGRouter.normFact c4money)
     (by decide),
   (C4_stage_effects [c4factA, c4factB] none).2 c4merged (by decide)⟩

theorem foldl_insertFact_fresh (gs : List LegalFact) :
    ∀ (acc : List (FactGraph.MergeKey × LegalFact)),
      (∀ g ∈ gs, ∀ p ∈ acc, p.1 ≠ FactGraph.mergeKey g) →
      gs.Pairwise (fun a b => FactGraph.mergeKey a ≠ FactGraph.mergeKey b) →
      gs.foldl FactGraph.insertFact acc =
        acc ++ gs.map (fun g => (FactGraph.mergeKey g, g)) := by
  induction gs with
  | nil => intro acc _ _; simp
  | cons g gs ih =>
    intro acc hdisj hdist
    rw [List.foldl_cons]
    have hnone : FactGraph.insertFact acc g =
        acc ++ [(FactGraph.mergeKey g, g)] := by
      simp only [FactGraph.insertFact]
      rw [if_neg ?_]
      intro hany
      rcases List.any_eq_true.mp hany with ⟨p, hp, hpk⟩
      exact hdisj g (List.mem_cons_self _ _) p hp (by simpa using hpk)
    rw [hnone, ih (acc ++ [(FactGraph.mergeKey g, g)]) ?_
      (List.Pairwise.sublist (List.sublist_cons_self g gs) hdist)]
    · simp
    · intro x hx p hp
      rcases List.mem_append.mp hp with hp1 | hp2
      · exact hdisj x (List.mem_cons_of_mem _ hx) p hp1
      · rcases List.mem_singleton.mp hp2 with rfl
        exact (List.pairwise_cons.mp hdist).1 x hx

theorem merge_role_facts_id (gs : List LegalFact)
    (hdist : gs.Pairwise
      (fun a b => FactGraph.mergeKey a ≠ FactGraph.mergeKey b)) :
    FactGraph.merge_role_facts gs = gs := by
  unfold FactGraph.merge_role_facts
  rw [foldl_insertFact_fresh gs [] (by simp) hdist]
  simp [List.map_map]
  exact List.map_id _

theorem insertFact_length (acc : List (FactGraph.MergeKey × LegalFact))
    (x : LegalFact) :
    acc.length ≤ (FactGraph.insertFact acc x).length := by
  simp only [FactGraph.insertFact]
  split
  · rw [List.length_map]
  · simp

theorem foldl_insertFact_length (facts : List LegalFact) :
    ∀ acc, acc.length ≤ (facts.foldl FactGraph.insertFact acc).length := by
  induction facts with
  | nil => intro acc; simp
  | cons x xs ih =>
    intro acc
    rw [List.foldl_cons]
    exact le_trans (insertFact_length acc x) (ih _)

theorem merge_role_facts_ne_nil (facts : List LegalFact)
    (h : facts ≠ []) : FactGraph.merge_role_facts facts ≠ [] := by
  rcases facts with _ | ⟨x, xs⟩
  · exact absurd rfl h
  · unfold FactGraph.merge_role_facts
    rw [List.foldl_cons]
    intro hc
    have h1 : (1 : Nat) ≤ ((FactGraph.insertFact [] x).length) := by
      simp [FactGraph.insertFact]
    have h2 := foldl_insertFact_length xs (FactGraph.insertFact [] x)
    rw [← List.length_eq_zero] at hc
    rw [List.length_map] at hc
    omega

theorem foldl_insertFact_keys (facts : List LegalFact) :
    ∀ acc : List (FactGraph.MergeKey × LegalFact),
      acc.Pairwise (fun p q => p.1 ≠ q.1) →
      (∀ p ∈ acc, p.1 = FactGraph.mergeKey p.2) →
      ((facts.foldl FactGraph.insertFact acc).Pairwise
          (fun p q => p.1 ≠ q.1) ∧
       ∀ p ∈ facts.foldl FactGraph.insertFact acc,
         p.1 = FactGraph.mergeKey p.2) := by
  induction facts with
  | nil => intro acc hpw hkey; exact ⟨hpw, hkey⟩
  | cons x xs ih =>
    intro acc hpw hkey
    rw [List.foldl_cons]
    apply ih
    · simp only [FactGraph.insertFact]
      split
      · rw [List.pairwise_map]
        refine hpw.imp ?_
        intro p q hne
        by_cases h1 : p.1 = FactGraph.mergeKey x <;>
          by_cases h2 : q.1 = FactGraph.mergeKey x
        · exact absurd (h1.trans h2.symm) hne
        · simp only [if_pos h1, if_neg h2]
          exact hne
        · simp only [if_neg h1, if_pos h2]
          exact hne
        · simpa [h1, h2] using hne
      · rename_i hno
        rw [List.pairwise_append]
        refine ⟨hpw, List.pairwise_singleton _ _, ?_⟩
        intro p hp q hq
        rcases List.mem_singleton.mp hq with rfl
        intro hpk
        exact hno (List.any_eq_true.mpr ⟨p, hp, by simp [hpk]⟩)
    · intro p hp
      simp only [FactGraph.insertFact] at hp
      split at hp
      · rcases List.mem_map.mp hp with ⟨p0, hp0, rfl⟩
        by_cases hm : p0.1 = FactGraph.mergeKey x
        · rw [if_pos hm]
          have hkx : FactGraph.mergeKey x = FactGraph.mergeKey p0.2 := by
            rw [← hm, hkey p0 hp0]
          show p0.1 = FactGraph.mergeKey (FactGraph.mergeInto p0.2 x)
          rw [(mergeInto_shape p0.2 x hkx).2]
          exact hkey p0 hp0
        · rw [if_neg hm]
          exact hkey p0 hp0
      · rcases List.mem_append.mp hp with h1 | h2
        · exact hkey p h1
        · rcases List.mem_singleton.mp h2 with rfl
          rfl

theorem merge_role_facts_keys (facts : List LegalFact) :
    (FactGraph.merge_role_facts facts).Pairwise
      (fun a b => FactGraph.mergeKey a ≠ FactGraph.mergeKey b) := by
  unfold FactGraph.merge_role_facts
  obtain ⟨hpw, hkey⟩ := foldl_insertFact_keys facts []
    (List.Pairwise.nil) (by intro p hp; simp at hp)
  rw [List.pairwise_map]
  refine hpw.imp_of_mem ?_
  intro p q hp hq hne hkeq
  exact hne (by rw [hkey p hp, hkey q hq, hkeq])

theorem firstDedupAux_skip [DecidableEq α] (seen : List α)
    (l1 l2 : List α) (h : ∀ x ∈ l1, x ∈ seen) :
    firstDedupAux seen (l1 ++ l2) = firstDedupAux seen l2 := by
  induction l1 with
  | nil => rfl
  | cons x xs ih =>
    simp only [List.cons_append, firstDedupAux,
      if_pos (h x (List.mem_cons_self _ _))]
    exact ih (fun y hy => h y (List.mem_cons_of_mem _ hy))

theorem firstDedupAux_pairwise [DecidableEq α] (l : List α) :
    ∀ seen, (firstDedupAux seen l).Pairwise (· ≠ ·) := by
  induction l with
  | nil => intro seen; exact List.Pairwise.nil
  | cons x xs ih =>
    intro seen
    by_cases hx : x ∈ seen
    · simpa [firstDedupAux, hx] using ih seen
    · simp only [firstDedupAux, if_neg hx]
      refine List.Pairwise.cons ?_ (ih (x :: seen))
      intro b hb
      have hmem := (mem_firstDedupAux xs (x :: seen) b).mp hb
      exact fun hxb => hmem.2 (by rw [← hxb]; exact List.mem_cons_self _ _)

theorem firstDedup_pairwise [DecidableEq α] (l : List α) :
    (firstDedup l).Pairwise (· ≠ ·) :=
  firstDedupAux_pairwise l []

theorem dedup_blocks (F : Option String → List LegalFact) :
    ∀ (rs : List (Option String)) (seen : List (Option String)),
      (∀ r ∈ rs, F r ≠ []) →
      (∀ r ∈ rs, ∀ g ∈ F r, g.role = r) →
      (∀ r ∈ rs, r ∉ seen) →
      rs.Pairwise (· ≠ ·) →
      firstDedupAux seen ((rs.flatMap F).map (fun g => g.role)) = rs := by
  intro rs
  induction rs with
  | nil => intro seen _ _ _ _; rfl
  | cons r rest ih =>
    intro seen hne hconst hdisj hdist
    rcases hFr : F r with _ | ⟨g, gs⟩
    · exact absurd hFr (hne r (List.mem_cons_self _ _))
    · have hgrole : g.role = r :=
        hconst r (List.mem_cons_self _ _) g
          (by rw [hFr]; exact List.mem_cons_self _ _)
      simp only [List.flatMap_cons, hFr, List.map_append, List.map_cons,
        List.cons_append]
      rw [hgrole]
      simp only [firstDedupAux, if_neg (hdisj r (List.mem_cons_self _ _))]
      congr 1
      rw [firstDedupAux_skip (r :: seen) (gs.map (fun g => g.role)) _ ?_]
      · refine ih (r :: seen)
          (fun r' hr' => hne r' (List.mem_cons_of_mem _ hr'))
          (fun r' hr' => hconst r' (List.mem_cons_of_mem _ hr')) ?_
          ((List.pairwise_cons.mp hdist).2)
        intro r' hr'
        intro hmem
        rcases List.mem_cons.mp hmem with h1 | h2
        · exact (List.pairwise_cons.mp hdist).1 r' hr' h1.symm
        · exact hdisj r' (List.mem_cons_of_mem _ hr') h2
      · intro y hy
        rcases List.mem_map.mp hy with ⟨g', hg', rfl⟩
        have hg'role : g'.role = r :=
          hconst r (List.mem_cons_self _ _) g'
            (by rw [hFr]; exact List.mem_cons_of_mem _ hg')
        rw [hg'role]
        exact List.mem_cons_self _ _

theorem filter_blocks (F : Option String → List LegalFact) :
    ∀ (rs : List (Option String)) (q : Option String),
      (∀ r ∈ rs, ∀ g ∈ F r, g.role = r) →
      rs.Pairwise (· ≠ ·) → q ∈ rs →
      (rs.flatMap F).filter (fun g => g.role = q) = F q := by
  intro rs
  induction rs with
  | nil => intro q _ _ hq; cases hq
  | cons r rest ih =>
    intro q hconst hdist hq
    simp only [List.flatMap_cons, List.filter_append]
    rcases List.mem_cons.mp hq with rfl | hq2
    · have h1 : (F q).filter (fun g => decide (g.role = q)) = F q :=
        List.filter_eq_self.mpr (fun g hg => by
          simp [hconst q (List.mem_cons_self _ _) g hg])
      have h2 : ((rest.flatMap F).filter
          (fun g => decide (g.role = q))) = [] := by
        rw [List.filter_eq_nil_iff]
        intro g hg
        rcases List.mem_flatMap.mp hg with ⟨r', hr', hgr'⟩
        have hrole := hconst r' (List.mem_cons_of_mem _ hr') g hgr'
        have hne : q ≠ r' := (List.pairwise_cons.mp hdist).1 r' hr'
        simp only [hrole, decide_eq_true_eq]
        exact fun hc => hne hc.symm
      rw [h1, h2, List.append_nil]
    · have h1 : (F r).filter (fun g => decide (g.role = q)) = [] := by
        rw [List.filter_eq_nil_iff]
        intro g hg
        have hrole := hconst r (List.mem_cons_self _ _) g hg
        have hne : r ≠ q := (List.pairwise_cons.mp hdist).1 q hq2
        simp only [hrole, decide_eq_true_eq]
        exact hne
      rw [h1, List.nil_append]
      exact ih q (fun r' hr' => hconst r' (List.mem_cons_of_mem _ hr'))
        ((List.pairwise_cons.mp hdist).2) hq2

theorem flatMap_congr_mem (l : List α) (f g : α → List β)
    (h : ∀ a ∈ l, f a = g a) : l.flatMap f = l.flatMap g := by
  induction l with
  | nil => rfl
  | cons a as ih =>
    rw [List.flatMap_cons, List.flatMap_cons, h a (List.mem_cons_self _ _),
      ih (fun a' ha' => h a' (List.mem_cons_of_mem _ ha'))]

/-- C9: `FactGraph.build` is idempotent — applying it to its own output
changes nothing: the output facts of one pass have pairwise-distinct
merge keys within each role bucket (merging preserves a fact's merge
key, since equal token-pair multisets make the token-append loop a
no-op), so a second pass performs no merges and returns the same list. -/
theorem C9_build_idempotent (facts : List LegalFact) :
    FactGraph.build (FactGraph.build facts) = FactGraph.build facts := by
  set F : Option String → List LegalFact := fun r =>
    FactGraph.merge_role_facts (facts.filter (fun f => f.role = r)) with hF
  set rs := firstDedup (facts.map (fun f => f.role)) with hrs
  have hbuild : FactGraph.build facts = rs.flatMap F := rfl
  have hdist : rs.Pairwise (· ≠ ·) := by rw [hrs]; exact firstDedup_pairwise _
  have hconst : ∀ r ∈ rs, ∀ g ∈ F r, g.role = r := by
    intro r _ g hg
    simp only [hF, FactGraph.merge_role_facts] at hg
    rcases List.mem_map.mp hg with ⟨p, hp, rfl⟩
    obtain ⟨-, f, hf, hshape⟩ := foldl_insertFact_inv
      (facts.filter (fun f => f.role = r)) (facts.filter (fun f => f.role = r))
      [] (fun y hy => hy) (by intro q hq; simp at hq) p hp
    have hrole : f.role = r := by
      have := (List.mem_filter.mp hf).2
      simpa using this
    exact hshape.2.2.1.trans hrole
  have hne : ∀ r ∈ rs, F r ≠ [] := by
    intro r hr
    rw [hrs] at hr
    have hr2 := (mem_firstDedup _ _).mp hr
    rcases List.mem_map.mp hr2 with ⟨f, hf, hfr⟩
    apply merge_role_facts_ne_nil
    intro hnil
    have : f ∈ facts.filter (fun f => f.role = r) :=
      List.mem_filter.mpr ⟨hf, by simp [hfr]⟩
    rw [hnil] at this
    cases this
  have hkeys : ∀ r ∈ rs, (F r).Pairwise
      (fun a b => FactGraph.mergeKey a ≠ FactGraph.mergeKey b) :=
    fun r _ => merge_role_facts_keys _
  rw [hbuild]
  show FactGraph.build (rs.flatMap F) = rs.flatMap F
  unfold FactGraph.build
  rw [show firstDedup ((rs.flatMap F).map (fun f => f.role)) = rs from
    dedup_blocks F rs [] hne hconst (by intro r _; exact List.not_mem_nil r)
      hdist]
  rw [flatMap_congr_mem rs _ F ?_]
  intro r hr
  rw [filter_blocks F rs r hconst hdist hr]
  exact merge_role_facts_id (F r) (hkeys r hr)
